import Mathlib

/-!
# SOCKS5 proxy (`pkg/socks`): wire codec and handshake

A shallow embedding of `proto.go`, `message.go`, `v5.go` and `socks.go`.

* A byte is a natural number; a Go `string` holding raw bytes is a `List Byte`,
  a Go `string` holding text (an address, a network name) is a `String`.
* The client connection delivers its bytes in segments: one segment is what one
  `Read` on the TCP connection returns (never empty), and after the last segment
  the stream is at end-of-file.  `bufio.Reader` is modelled over that, so the
  difference between `Read` (one short read) and `io.ReadFull` is kept.
* Everything the session does to the outside (messages asked for, bytes flushed
  to the client, dials, the relay, closes) is recorded in order in a ghost log.
* Name lookup, dialing and the relay are oracles of the environment.  The relay
  (two copy loops and `wg.Wait`) either ends, after which `Serve` closes both
  connections and returns, or never ends, and then `Serve` never returns.
-/

namespace Socks

abbrev Byte := Nat

/-! ## proto.go -/

abbrev SOCKS5_VERSION : Byte := 0x05
abbrev SOCKS4_VERSION : Byte := 0x04

abbrev AUTH_NO_AUTH : Byte := 0x00
abbrev AUTH_GSSAPI : Byte := 0x01
abbrev AUTH_USERNAME_PASS : Byte := 0x02
abbrev AUTH_NO_METHODS : Byte := 0xFF

abbrev USERPASS_VERSION : Byte := 0x01
abbrev USERPASS_SUCCESS : Byte := 0x00
abbrev USERPASS_FAILURE : Byte := 0x01

abbrev CMD_CONNECT : Byte := 0x01
abbrev CMD_BIND : Byte := 0x02
abbrev CMD_UDP_ASSOCIATE : Byte := 0x03

abbrev ATYP_IPV4 : Byte := 0x01
abbrev ATYP_DOMAIN : Byte := 0x03
abbrev ATYP_IPV6 : Byte := 0x04

abbrev REP_SUCCESS : Byte := 0x00
abbrev REP_GENERAL_FAILURE : Byte := 0x01
abbrev REP_NOT_ALLOWED : Byte := 0x02
abbrev REP_NETWORK_UNREACHABLE : Byte := 0x03
abbrev REP_HOST_UNREACHABLE : Byte := 0x04
abbrev REP_CONNECTION_REFUSED : Byte := 0x05
abbrev REP_TTL_EXPIRED : Byte := 0x06
abbrev REP_COMMAND_NOT_SUPPORTED : Byte := 0x07
abbrev REP_ADDRESS_NOT_SUPPORTED : Byte := 0x08

abbrev RSV : Byte := 0x00

/-! ## message.go -/

inductive SocksMessageType where
  | MessageNegotiate
  | MessageRequest
  | MessageNoAuth
  | MessageUserPassAuth
  | MessageUserPassAuthSuccess
  | MessageNoMethods
  | MessageRequestSuccess
  deriving DecidableEq, Repr

deriving instance DecidableEq for Except

/-! ## Errors, events, connection state -/

/-- The error values that can come out of the codec and of `Serve`. -/
inductive Err where
  | EOF                  -- io.EOF
  | ErrUnexpectedEOF     -- io.ErrUnexpectedEOF
  | ErrNoProgress        -- io.ErrNoProgress
  | invalidMessageType   -- fmt.Errorf("invalid message type:%v", messageType)
  | dnsNotFound          -- fmt.Errorf("dns: A record not found")
  | lookup               -- an error of net.LookupIP
  | dial                 -- an error of net.Dial
  | write                -- an error of the connection on Flush
  | bufferTooSmall       -- binary.Decode on a buffer shorter than the value
  | connection           -- fmt.Errorf("SOCKS connection error")
  | notImplemented       -- fmt.Errorf("not implemented")
  deriving DecidableEq, Repr

/-- What a session does to the outside, in order. -/
inductive Event where
  | read (t : SocksMessageType)          -- ReadMessage was called for this kind
  | write (bytes : List Byte)            -- these bytes were flushed to the client
  | dial (network address : String)      -- net.Dial was called
  | relay                                -- the two io.Copy goroutines were started
  | closeClient                          -- Close on the client connection
  | closeTarget                          -- Close on the target connection
  deriving DecidableEq, Repr

/-- One non-empty result of a `Read` on the TCP connection. -/
structure Segment where
  first : Byte
  rest : List Byte
  deriving DecidableEq, Repr

def Segment.bytes (s : Segment) : List Byte := s.first :: s.rest

/-- The client `net.Conn`: the segments it will still deliver (then end-of-file),
the number of further writes the transport accepts, and the ghost log. -/
structure Conn where
  rx : List Segment
  tx : Nat
  log : List Event
  deriving DecidableEq, Repr

/-- The struct `SocksV5Connection` of v5.go.  `br`, the `bufio.Reader` over `conn`, is
represented by the bytes it has buffered and not yet handed out. -/
structure SocksV5Connection where
  conn : Conn
  br : List Byte
  deriving DecidableEq, Repr

/-- All bytes still to be delivered by a list of segments. -/
def pending : List Segment → List Byte
  | [] => []
  | s :: r => s.bytes ++ pending r

/-- Every byte the reader can still hand out, buffered or not yet received. -/
def SocksV5Connection.stream (sc : SocksV5Connection) : List Byte :=
  sc.br ++ pending sc.conn.rx

/-- A step on the connection: a value or an error, and the connection afterwards. -/
abbrev Step (α : Type) := SocksV5Connection → Except Err α × SocksV5Connection

instance : Monad Step where
  pure a := fun sc => (.ok a, sc)
  bind m k := fun sc =>
    match m sc with
    | (.ok a, sc1) => k a sc1
    | (.error e, sc1) => (.error e, sc1)

/-- Return a Go error. -/
def fail {α : Type} (e : Err) : Step α := fun sc => (.error e, sc)

/-- Append an event to the ghost log. -/
def emit (e : Event) : Step Unit := fun sc =>
  (.ok (), { sc with conn := { sc.conn with log := sc.conn.log ++ [e] } })

/-! ## bufio.Reader and io.ReadFull -/

/-- Method `ReadByte` of bufio.Reader: the next buffered byte; with an empty buffer the
buffer is refilled by one read on the connection, which fails with EOF at end-of-file. -/
def ReadByte : Step Byte := fun sc =>
  match sc.br with
  | b :: bs => (.ok b, { sc with br := bs })
  | [] =>
    match sc.conn.rx with
    | [] => (.error .EOF, sc)
    | s :: rx => (.ok s.first, { conn := { sc.conn with rx := rx }, br := s.rest })

/-- Method `UnreadByte` of bufio.Reader directly after a `ReadByte` that returned `last`:
the byte is put back (it cannot fail there). -/
def UnreadByte (last : Byte) : Step Unit := fun sc =>
  (.ok (), { sc with br := last :: sc.br })

/-- Method `Read` of bufio.Reader for a destination of `n` bytes: the bytes read, at most
`n`.  A zero-length destination reads nothing and returns no error (no read error is ever
left pending between calls here).  With buffered bytes it hands out what is
buffered, up to `n`; with an empty buffer it does ONE read on the connection and hands out
from that.  It only fails (EOF) when that one read hits end-of-file. -/
def Read (n : Nat) : Step (List Byte) := fun sc =>
  if n = 0 then (.ok [], sc)
  else
    match sc.br with
    | _ :: _ => (.ok (sc.br.take n), { sc with br := sc.br.drop n })
    | [] =>
      match sc.conn.rx with
      | [] => (.error .EOF, sc)
      | s :: rx => (.ok (s.bytes.take n), { conn := { sc.conn with rx := rx }, br := s.bytes.drop n })

/-- The loop of io.ReadAtLeast with min = len(buf) = `size`: call `Read` for the missing
bytes until `size` bytes are there or `Read` fails; EOF after some bytes becomes
ErrUnexpectedEOF.  The fuel bounds the number of iterations. -/
def ReadFullLoop (size : Nat) : Nat → List Byte → Step (List Byte)
  | 0, _ => fail .ErrNoProgress
  | fuel + 1, got => fun sc =>
    if size ≤ got.length then (.ok got, sc)
    else
      match Read (size - got.length) sc with
      | (.ok bs, sc1) => ReadFullLoop size fuel (got ++ bs) sc1
      | (.error e, sc1) =>
        (.error (if 0 < got.length ∧ e = .EOF then .ErrUnexpectedEOF else e), sc1)

/-- Function `io.ReadFull(sc.br, buf)` with len(buf) = `size`.  Every `Read` for a non-empty
destination yields at least one byte or fails, so `size + 1` iterations are enough. -/
def ReadFull (size : Nat) : Step (List Byte) := ReadFullLoop size (size + 1) []

/-- The destination slice after `copy(dst, src)` from its start (len src ≤ len dst). -/
def copyInto (dst src : List Byte) : List Byte := src ++ dst.drop src.length

/-- A fresh `make([]byte, n)`. -/
def zeros (n : Nat) : List Byte := List.replicate n 0

/-! ## net.IP (standard library, as used by v5.go) -/

/-- Method `To4` of net.IP: the 4-byte form of an IPv4 address (given in 4 bytes, or in 16
bytes as ::ffff:a.b.c.d), and nil, the empty slice, for anything else. -/
def To4 (ip : List Byte) : List Byte :=
  if ip.length = 4 then ip
  else if ip.length = 16 ∧ (ip.take 10).all (fun b => b == 0) ∧ (ip.drop 10).take 2 = [0xff, 0xff]
  then ip.drop 12
  else []

/-- Lower-case hexadecimal of a number, no leading zeros. -/
def hex (n : Nat) : String := String.mk (Nat.toDigits 16 n)

/-- Dotted decimal of a 4-byte address. -/
def dotted : List Byte → String
  | [a, b, c, d] => toString a ++ "." ++ toString b ++ "." ++ toString c ++ "." ++ toString d
  | _ => ""

/-- The eight 16-bit groups of a 16-byte address. -/
def groups : List Byte → List Nat
  | hi :: lo :: r => (hi * 256 + lo) :: groups r
  | _ => []

/-- The first longest run of at least two zero groups, as (start, end), if there is one. -/
def zeroRun (g : List Nat) : Option (Nat × Nat) :=
  (List.range 8).foldl
    (fun best i =>
      let l := ((g.drop i).takeWhile (fun x => x == 0)).length
      let len := match best with
        | none => 0
        | some (s, e) => e - s
      if 2 ≤ l ∧ len < l then some (i, i + l) else best)
    none

/-- Text of a 16-byte address that is not an IPv4 address: hexadecimal groups separated by
colons, the first longest run of zero groups written as "::". -/
def string6 (ip : List Byte) : String :=
  let g := groups ip
  match zeroRun g with
  | none => String.intercalate ":" (g.map hex)
  | some (s, e) =>
    String.intercalate ":" ((g.take s).map hex) ++ "::" ++
      String.intercalate ":" ((g.drop e).map hex)

/-- Two hexadecimal digits per byte. -/
def hexString (ip : List Byte) : String :=
  String.join (ip.map (fun b => hex (b / 16) ++ hex (b % 16)))

/-- Method `String` of net.IP. -/
def IPString (ip : List Byte) : String :=
  if ip.length = 0 then "<nil>"
  else if ip.length ≠ 4 ∧ ip.length ≠ 16 then "?" ++ hexString ip
  else if (To4 ip).length = 4 then dotted (To4 ip)
  else string6 ip

/-- Function `binary.Decode(buf, binary.BigEndian, &v)` for a uint16 `v`. -/
def decodeU16 : List Byte → Except Err Nat
  | hi :: lo :: _ => .ok (hi * 256 + lo)
  | _ => .error .bufferTooSmall

/-- The outside world of a session: name lookup (an IP is its 4 or 16 bytes), dialing
(network, address), and the relay with the dialed target: given what the client connection
still has to deliver, `none` when the two copy loops never both end (so that `wg.Wait`
never returns), and otherwise what they left unread on the client connection. -/
structure Env where
  LookupIP : List Byte → Except Err (List (List Byte))
  Dial : String → String → Except Err Unit
  Relay : String → String → List Segment → Option (List Segment)

/-! ## v5.go -/

structure SocksV5Negotiate where
  Version : Byte
  NoMethods : Byte
  Methods : List Byte
  deriving DecidableEq, Repr

structure SocksV5Connect where
  Version : Byte
  Command : Byte
  Rsv : Byte
  Atyp : Byte
  Address : String
  Port : Nat
  Network : String
  deriving DecidableEq, Repr

structure SocksV5Authenticate where
  Version : Byte
  Username : List Byte
  Password : List Byte
  deriving DecidableEq, Repr

/-- The interface `SocksMessage` with its three implementations. -/
inductive SocksMessage where
  | negotiate (m : SocksV5Negotiate)
  | connect (m : SocksV5Connect)
  | authenticate (m : SocksV5Authenticate)
  deriving DecidableEq, Repr

/-- Method `Marshal` of SocksV5Negotiate. -/
def SocksV5Negotiate.Marshal (_ : SocksV5Negotiate) : Except Err (List Byte) :=
  .error .notImplemented

/-- Method `Marshal` of SocksV5Connect. -/
def SocksV5Connect.Marshal (_ : SocksV5Connect) : Except Err (List Byte) :=
  .error .notImplemented

/-- Method `Marshal` of SocksV5Authenticate. -/
def SocksV5Authenticate.Marshal (_ : SocksV5Authenticate) : Except Err (List Byte) :=
  .error .notImplemented

/-- Method `Marshal` called on the interface value. -/
def SocksMessage.Marshal : SocksMessage → Except Err (List Byte)
  | .negotiate m => m.Marshal
  | .connect m => m.Marshal
  | .authenticate m => m.Marshal

/-- Lift the result of a pure library call into a step. -/
def liftExcept {α : Type} : Except Err α → Step α
  | .ok a => pure a
  | .error e => fail e

/-- Method `ReadMessage` of SocksV5Connection. -/
def ReadMessage (env : Env) (messageType : SocksMessageType) : Step SocksMessage := do
  emit (.read messageType)
  match messageType with
  | .MessageNegotiate =>
    let version ← ReadByte
    let nMethods ← ReadByte
    let methods ← ReadFull nMethods
    pure (.negotiate { Version := version, NoMethods := nMethods, Methods := methods })
  | .MessageRequest =>
    let version ← ReadByte
    let command ← ReadByte
    let rsv ← ReadByte
    let atyp ← ReadByte
    let addr ← (
      if atyp = ATYP_IPV4 then do
        let ipv4 ← ReadFull 4
        pure (IPString ipv4)
      else if atyp = ATYP_IPV6 then do
        let ipv6 ← ReadFull 16
        pure (IPString ipv6)
      else if atyp = ATYP_DOMAIN then do
        let dLen ← ReadByte
        let dns ← ReadFull dLen
        let ips ← liftExcept (env.LookupIP dns)
        match ips with
        | ip :: _ => pure (IPString (To4 ip))
        | [] => fail .dnsNotFound
      else pure "")
    let port := zeros 2
    let got ← Read port.length
    let port := copyInto port got
    let portNum ← liftExcept (decodeU16 port)
    pure (.connect
      { Version := version, Command := command, Rsv := rsv, Atyp := atyp,
        Address := addr, Port := portNum,
        Network := if command = CMD_CONNECT then "tcp" else "udp" })
  | .MessageUserPassAuth =>
    let version ← ReadByte
    let uLen ← ReadByte
    let username := zeros uLen
    let got ← Read username.length
    let username := copyInto username got
    let pLen ← ReadByte
    let password := zeros pLen
    let got ← Read username.length
    let username := copyInto username got
    pure (.authenticate { Version := version, Username := username, Password := password })
  | _ => fail .invalidMessageType

structure ConnectionArgs where
  AddressType : Byte
  deriving DecidableEq, Repr

def WithAddressType (aType : Byte) : ConnectionArgs → ConnectionArgs :=
  fun args => { args with AddressType := aType }

/-- Method `Flush` of a fresh bufio.Writer holding `bw`: one write of these bytes on the
connection, which fails once the transport accepts no more writes. -/
def Flush (bw : List Byte) : Step Unit := fun sc =>
  match sc.conn.tx with
  | 0 => (.error .write, sc)
  | t + 1 => (.ok (), { sc with conn := { sc.conn with tx := t, log := sc.conn.log ++ [.write bw] } })

/-- Method `WriteMessage` of SocksV5Connection. -/
def WriteMessage (messageType : SocksMessageType)
    (connectionArgs : List (ConnectionArgs → ConnectionArgs)) : Step Unit :=
  match messageType with
  | .MessageNoAuth => Flush [SOCKS5_VERSION, AUTH_NO_AUTH]
  | .MessageUserPassAuth => Flush [SOCKS5_VERSION, AUTH_USERNAME_PASS]
  | .MessageUserPassAuthSuccess => Flush [SOCKS5_VERSION, USERPASS_SUCCESS]
  | .MessageRequestSuccess =>
    let bw := [SOCKS5_VERSION, REP_SUCCESS, RSV]
    let args := connectionArgs.foldl (fun args argFunc => argFunc args) { AddressType := 0 }
    let bw := if args.AddressType = ATYP_IPV4 then bw ++ [ATYP_IPV4] ++ [0x00, 0x00, 0x00, 0x00] else bw
    let bw := bw ++ [0x00, 0x00]
    Flush bw
  | .MessageNoMethods => Flush [SOCKS5_VERSION, AUTH_NO_METHODS]
  | _ => fail .invalidMessageType

/-! ## socks.go -/

/-- How a call of `Serve` ends: it returns (nil or an error) with the connection in some
state, or it never returns because the relay never ends, or it panics on a nil pointer
dereference. -/
inductive Outcome where
  | returned (err : Option Err) (sc : SocksV5Connection)
  | blocked (sc : SocksV5Connection)
  | panicked
  deriving DecidableEq, Repr

/-- The end of `Serve` after its steps: the error when one failed; otherwise nil when the
relay ended (`true`), and no return at all when it did not (`false`). -/
def Outcome.ofStep : Except Err Bool × SocksV5Connection → Outcome
  | (.ok true, sc) => .returned none sc
  | (.ok false, sc) => .blocked sc
  | (.error e, sc) => .returned (some e) sc

/-- The call `wg.Wait()` on the two copy loops between the client connection and the dialed
target: `true` when both loops have ended, with what the loop from the client left unread
on the connection (it reads `sc.conn` itself, not the buffered reader, so bytes still
buffered stay where they are); `false` when they never both end, with the connection as
it was when the loops were started. -/
def wgWait (env : Env) (network target : String) : Step Bool := fun sc =>
  match env.Relay network target sc.conn.rx with
  | some left => (.ok true, { sc with conn := { sc.conn with rx := left } })
  | none => (.ok false, sc)

/-- First half of `Serve` (socks.go, lines 95-132): read the negotiation request and
answer it; a method list offering username/password is followed by the
sub-negotiation. -/
def Serve.negotiate (env : Env) : Step Unit := do
  let negoMessage ← ReadMessage env .MessageNegotiate
  match negoMessage with
  | .negotiate msg =>
    if msg.Version = SOCKS5_VERSION then
      if msg.Methods.contains AUTH_USERNAME_PASS then do
        WriteMessage .MessageUserPassAuth []
        let _ ← ReadMessage env .MessageUserPassAuth
        WriteMessage .MessageUserPassAuthSuccess []
      else if msg.Methods.contains AUTH_NO_AUTH then
        WriteMessage .MessageNoAuth []
      else
        WriteMessage .MessageNoMethods []
    else pure ()
  | _ => pure ()

/-- Second half of `Serve` (socks.go, lines 134-176): read the request, answer it, dial
the target, start the two copy loops and wait for both; only when both have ended are the
two connections closed and nil returned (`true`). When they never both end, `wg.Wait` does
not return: nothing is closed and `Serve` does not return (`false`). -/
def Serve.request (env : Env) : Step Bool := do
  let reqMessage ← ReadMessage env .MessageRequest
  match reqMessage with
  | .connect msg =>
    if msg.Version = SOCKS5_VERSION then do
      WriteMessage .MessageRequestSuccess [WithAddressType msg.Atyp]
      let target := msg.Address ++ ":" ++ toString msg.Port
      emit (.dial msg.Network target)
      liftExcept (env.Dial msg.Network target)
      emit .relay
      let ended ← wgWait env msg.Network target
      if ended then do
        emit .closeClient
        emit .closeTarget
        pure true
      else pure false
    else fail .connection
  | _ => fail .connection

/-- Method `Serve` of SocksServer.  The argument is an interface value: `none` is nil, on
which the first method call panics. -/
def Serve (env : Env) (srcConn : Option SocksV5Connection) : Outcome :=
  match srcConn with
  | none => .panicked
  | some sc => Outcome.ofStep ((do Serve.negotiate env; Serve.request env) sc)

/-- How the goroutine of one accepted connection ends: it returns, or a panic ends the
whole process, either way with the connection as the deferred Close left it; or it never
ends because `Serve` never returns, and the deferred Close does not run. -/
inductive Ended where
  | done (conn : Conn)
  | crashed (conn : Conn)
  | blocked (conn : Conn)
  deriving DecidableEq, Repr

/-- The deferred `conn.Close()`. -/
def Close (conn : Conn) : Conn := { conn with log := conn.log ++ [.closeClient] }

/-- The goroutine that `Start` runs for one accepted connection. -/
def StartHandler (env : Env) (conn : Conn) : Ended :=
  let br : SocksV5Connection := { conn := conn, br := [] }
  match ReadByte br with
  | (.error _, br) => .done (Close br.conn)
  | (.ok ver, br) =>
    match UnreadByte ver br with
    | (.error _, br) => .done (Close br.conn)
    | (.ok _, br) =>
      let sockConn : Option SocksV5Connection := if ver = SOCKS5_VERSION then some br else none
      match Serve env sockConn with
      | .returned _ sc => .done (Close sc.conn)
      | .blocked sc => .blocked sc.conn
      | .panicked => .crashed (Close br.conn)

/-! ## Reading a session off its log -/

/-- The log a call of `Serve` leaves behind. -/
def Outcome.log : Outcome → List Event
  | .returned _ sc => sc.conn.log
  | .blocked sc => sc.conn.log
  | .panicked => []

/-- The events that follow the first call of `ReadMessage` for kind `t`. -/
def eventsAfter (t : SocksMessageType) (log : List Event) : List Event :=
  (log.dropWhile (fun e => e != .read t)).drop 1

/-- The reply codes (second byte) of what was written after the ConnectRequest was asked for. -/
def connectReplies (log : List Event) : List Byte :=
  (eventsAfter .MessageRequest log).filterMap fun e =>
    match e with
    | .write (_ :: rep :: _) => some rep
    | _ => none

/-- The dials of a session: network and address. -/
def dials (log : List Event) : List (String × String) :=
  log.filterMap fun e =>
    match e with
    | .dial network address => some (network, address)
    | _ => none

/-- The AuthReply of a session: what was written directly after the AuthRequest was asked for. -/
def authReply (log : List Event) : Option (List Byte) :=
  match eventsAfter .MessageUserPassAuth log with
  | .write bytes :: _ => some bytes
  | _ => none

/-- The specification's words on the AuthReply, for the verdict `accepted` of an authenticator
on the decoded AuthRequest: rejected credentials get a failure status and no ConnectRequest is
read; the success status is written only for accepted credentials. -/
def AuthReplyReflects (accepted : Bool) (log : List Event) : Prop :=
  (accepted = false →
    (∃ ver status, authReply log = some [ver, status] ∧ status ≠ USERPASS_SUCCESS) ∧
    Event.read .MessageRequest ∉ log) ∧
  ((∃ ver, authReply log = some [ver, USERPASS_SUCCESS]) → accepted = true)

/-! ## Properties of steps -/

/-- A step that leaves the log and the write budget alone. -/
structure Quiet {α : Type} (m : Step α) : Prop where
  all : ∀ sc, (m sc).2.conn.log = sc.conn.log ∧ (m sc).2.conn.tx = sc.conn.tx

/-- A step that only appends to the log. -/
structure Extends {α : Type} (m : Step α) : Prop where
  all : ∀ sc, ∃ rest, (m sc).2.conn.log = sc.conn.log ++ rest

/-- Every value the step returns satisfies `P`. -/
structure Post {α : Type} (m : Step α) (P : α → Prop) : Prop where
  all : ∀ sc a sc1, m sc = (.ok a, sc1) → P a

/-! ## Concrete sessions -/

/-- A relay over "tcp" between peers that close ends with the client connection read to
its end; a relay over any other network never ends (a UDP socket has no end-of-stream). -/
def relayTcpOnly (network _address : String) (_rx : List Segment) : Option (List Segment) :=
  if network = "tcp" then some [] else none

/-- An environment in which every name resolves to 127.0.0.1, every dial succeeds and the
peers of a "tcp" relay close. -/
def envReachable : Env :=
  { LookupIP := fun _ => .ok [[127, 0, 0, 1]], Dial := fun _ _ => .ok (), Relay := relayTcpOnly }

/-- An environment in which every dial fails. -/
def envUnreachable : Env :=
  { LookupIP := fun _ => .ok [[127, 0, 0, 1]], Dial := fun _ _ => .error .dial,
    Relay := relayTcpOnly }

/-- A fresh client connection that will deliver the given segments and then end. -/
def client (segments : List Segment) : SocksV5Connection :=
  { conn := { rx := segments, tx := 3, log := [] }, br := [] }

/-- The bytes 05 01 00 01 7F 00 00 01 00 50: CONNECT to 127.0.0.1:80. -/
def connectLocalhost : Segment := ⟨0x05, [0x01, 0x00, 0x01, 0x7F, 0x00, 0x00, 0x01, 0x00, 0x50]⟩

/-- The bytes 05 02 00 01 7F 00 00 01 00 50: BIND for 127.0.0.1:80. -/
def bindLocalhost : Segment := ⟨0x05, [0x02, 0x00, 0x01, 0x7F, 0x00, 0x00, 0x01, 0x00, 0x50]⟩

/-- A client offering no-auth, username/password and username/password again. -/
def offersBoth : SocksV5Connection := client [⟨0x05, [0x03, 0x00, 0x02, 0x02]⟩]

/-- A client offering only GSSAPI, and sending a CONNECT all the same. -/
def offersGssapi : SocksV5Connection := client [⟨0x05, [0x01, 0x01]⟩, connectLocalhost]

/-- A client offering no-auth and asking for BIND. -/
def asksBind : SocksV5Connection := client [⟨0x05, [0x01, 0x00]⟩, bindLocalhost]

/-- A client offering no-auth and asking for CONNECT to 127.0.0.1:80. -/
def asksConnect : SocksV5Connection := client [⟨0x05, [0x01, 0x00]⟩, connectLocalhost]

/-- A client offering username/password, sending user "user" with password "bad"
(01 04 75 73 65 72 03 62 61 64), then a CONNECT. -/
def sendsBadPassword : SocksV5Connection :=
  client [⟨0x05, [0x01, 0x02]⟩,
    ⟨0x01, [0x04, 0x75, 0x73, 0x65, 0x72, 0x03, 0x62, 0x61, 0x64]⟩, connectLocalhost]

/-- A client whose negotiation request carries version 4, followed by a CONNECT. -/
def negotiatesV4 : SocksV5Connection := client [⟨0x04, [0x01, 0x00]⟩, connectLocalhost]

/-- The accepted connection of a SOCKS4 client: first byte 04. -/
def socks4Client : Conn := { rx := [⟨0x04, [0x01, 0x00, 0x50, 0x7F, 0x00, 0x00, 0x01, 0x00]⟩], tx := 3, log := [] }

/-- Decode one message of kind `t` from the connection and encode it again. -/
def roundTrip (env : Env) (t : SocksMessageType) (sc : SocksV5Connection) :
    Except Err (List Byte) :=
  match (ReadMessage env t sc).1 with
  | .ok m => m.Marshal
  | .error e => .error e

/-- The bytes at hand without waiting: the buffer, or with an empty buffer what the next
read on the connection returns. -/
def SocksV5Connection.available (sc : SocksV5Connection) : List Byte :=
  match sc.br with
  | [] =>
    match sc.conn.rx with
    | [] => []
    | s :: _ => s.bytes
  | b :: bs => b :: bs

/-- An environment in which every name resolves to ::1 first and 127.0.0.1 second, and
every dial succeeds. -/
def envIPv6First : Env :=
  { LookupIP := fun _ => .ok [[0, 0, 0, 0, 0, 0, 0, 0, 0, 0, 0, 0, 0, 0, 0, 1], [127, 0, 0, 1]],
    Dial := fun _ _ => .ok (), Relay := relayTcpOnly }

/-- The bytes 05 01 00 03 09 "localhost" 00 50: CONNECT to localhost:80. -/
def connectDomain : Segment :=
  ⟨0x05, [0x01, 0x00, 0x03, 0x09, 0x6C, 0x6F, 0x63, 0x61, 0x6C, 0x68, 0x6F, 0x73, 0x74, 0x00, 0x50]⟩

/-- The bytes 05 01 00 04 (::1) 00 50: CONNECT to port 80 of the IPv6 address ::1. -/
def connectIPv6 : Segment :=
  ⟨0x05, [0x01, 0x00, 0x04, 0, 0, 0, 0, 0, 0, 0, 0, 0, 0, 0, 0, 0, 0, 0, 1, 0x00, 0x50]⟩

/-- A client offering no-auth and asking for CONNECT to [::1]:80. -/
def asksConnectIPv6 : SocksV5Connection := client [⟨0x05, [0x01, 0x00]⟩, connectIPv6]

/-- An AuthRequest with user "ab" and password "xyz" (01 02 61 62 03 78 79 7A), followed in
the same segment by a CONNECT to 127.0.0.1:80. -/
def authThenConnect : SocksV5Connection :=
  client [⟨0x01, [0x02, 0x61, 0x62, 0x03, 0x78, 0x79, 0x7A,
    0x05, 0x01, 0x00, 0x01, 0x7F, 0x00, 0x00, 0x01, 0x00, 0x50]⟩]

/-- An AuthRequest with the empty user name and password "p" (01 00 01 70), followed in the
same segment by a CONNECT to 127.0.0.1:80. -/
def emptyUserThenConnect : SocksV5Connection :=
  client [⟨0x01, [0x00, 0x01, 0x70,
    0x05, 0x01, 0x00, 0x01, 0x7F, 0x00, 0x00, 0x01, 0x00, 0x50]⟩]

/-- An event of the handshake proper: a message asked for, or bytes written to the client. -/
def Event.isHandshake : Event → Bool
  | .read _ => true
  | .write _ => true
  | _ => false

/-- The number of targets opened in a log: its dials that succeeded. -/
def opened (env : Env) (log : List Event) : Nat :=
  ((dials log).filter fun d =>
    match env.Dial d.1 d.2 with
    | .ok _ => true
    | .error _ => false).length

/-- The steps ended in the relay that never ends. -/
def staysInRelay : Except Err Bool → Bool
  | .ok false => true
  | _ => false

/-- The handler never ends. -/
def Ended.isBlocked : Ended → Bool
  | .blocked _ => true
  | _ => false

/-- The account of opens and closes in what a run appended to the log. At most one target
was opened. A run that stays in the relay has opened its target and closed nothing. A run
that ended has closed the target as often as it opened one, and the client `base` times
plus once for the target it opened. -/
def Settled (env : Env) (blocked : Bool) (base : Nat) (rest : List Event) : Prop :=
  opened env rest ≤ 1 ∧
  (blocked = true →
    opened env rest = 1 ∧ rest.count .closeClient = 0 ∧ rest.count .closeTarget = 0) ∧
  (blocked = false →
    rest.count .closeTarget = opened env rest ∧
    rest.count .closeClient = base + opened env rest)

/-- A step that appends to the log only events of the handshake proper. -/
structure Calm {α : Type} (m : Step α) : Prop where
  all : ∀ sc, ∃ rest, (m sc).2.conn.log = sc.conn.log ++ rest ∧
    rest.all Event.isHandshake = true

/-- A step whose appended events are settled, the client not being closed otherwise. -/
structure Paired (env : Env) (m : Step Bool) : Prop where
  all : ∀ sc, ∃ rest, (m sc).2.conn.log = sc.conn.log ++ rest ∧
    Settled env (staysInRelay (m sc).1) 0 rest

/-- The connection as the handler left it. -/
def Ended.conn : Ended → Conn
  | .done conn => conn
  | .crashed conn => conn
  | .blocked conn => conn

/-! ## Lemmas on steps, the reader and the log -/

theorem bind_apply {α β : Type} (m : Step α) (k : α → Step β) (sc : SocksV5Connection) :
    (m >>= k) sc = match m sc with
      | (.ok a, sc1) => k a sc1
      | (.error e, sc1) => (.error e, sc1) := rfl

theorem pure_apply {α : Type} (a : α) (sc : SocksV5Connection) :
    (pure a : Step α) sc = (.ok a, sc) := rfl

theorem quiet_pure {α : Type} (a : α) : Quiet (pure a : Step α) := ⟨fun _ => ⟨rfl, rfl⟩⟩

theorem quiet_fail {α : Type} (e : Err) : Quiet (fail e : Step α) := ⟨fun _ => ⟨rfl, rfl⟩⟩

theorem quiet_bind {α β : Type} {m : Step α} {k : α → Step β}
    (hm : Quiet m) (hk : ∀ a, Quiet (k a)) : Quiet (m >>= k) := by
  refine ⟨fun sc => ?_⟩
  rw [bind_apply]
  have h := hm.all sc
  rcases hr : m sc with ⟨r, sc1⟩
  rw [hr] at h
  cases r with
  | ok a => have h2 := (hk a).all sc1; exact ⟨h2.1.trans h.1, h2.2.trans h.2⟩
  | error e => exact h

theorem quiet_liftExcept {α : Type} (r : Except Err α) : Quiet (liftExcept r) := by
  cases r <;> exact ⟨fun _ => ⟨rfl, rfl⟩⟩

theorem quiet_ReadByte : Quiet ReadByte := by
  refine ⟨fun sc => ?_⟩
  unfold Socks.ReadByte
  split
  · exact ⟨rfl, rfl⟩
  · split <;> exact ⟨rfl, rfl⟩

theorem quiet_Read (n : Nat) : Quiet (Read n) := by
  refine ⟨fun sc => ?_⟩
  unfold Socks.Read
  split
  · exact ⟨rfl, rfl⟩
  · split
    · exact ⟨rfl, rfl⟩
    · split <;> exact ⟨rfl, rfl⟩

theorem quiet_ReadFullLoop (size : Nat) : ∀ fuel got, Quiet (ReadFullLoop size fuel got) := by
  intro fuel
  induction fuel with
  | zero => intro got; exact ⟨fun sc => ⟨rfl, rfl⟩⟩
  | succ fuel ih =>
    intro got
    refine ⟨fun sc => ?_⟩
    unfold Socks.ReadFullLoop
    split
    · exact ⟨rfl, rfl⟩
    · have h := (quiet_Read (size - got.length)).all sc
      rcases hr : Socks.Read (size - got.length) sc with ⟨r, sc1⟩
      rw [hr] at h
      cases r with
      | ok bs => have h2 := (ih (got ++ bs)).all sc1; exact ⟨h2.1.trans h.1, h2.2.trans h.2⟩
      | error e => exact h

theorem quiet_ReadFull (size : Nat) : Quiet (ReadFull size) := quiet_ReadFullLoop size _ _

/-- What `ReadMessage` leaves behind besides the bytes it consumed. -/
theorem ReadMessage_log (env : Env) (t : SocksMessageType) (sc : SocksV5Connection) :
    (ReadMessage env t sc).2.conn.log = sc.conn.log ++ [.read t] ∧
    (ReadMessage env t sc).2.conn.tx = sc.conn.tx := by
  have key : ∀ (m : Step SocksMessage), Quiet m →
      ((emit (.read t) >>= fun _ => m) sc).2.conn.log = sc.conn.log ++ [.read t] ∧
      ((emit (.read t) >>= fun _ => m) sc).2.conn.tx = sc.conn.tx := by
    intro m hm
    have h := hm.all (emit (.read t) sc).2
    exact h
  unfold ReadMessage
  apply key
  cases t <;>
    repeat (first
      | exact quiet_fail _
      | exact quiet_pure _
      | exact quiet_ReadByte
      | exact quiet_Read _
      | exact quiet_ReadFull _
      | exact quiet_liftExcept _
      | (apply quiet_bind)
      | (intro _)
      | split)

theorem ReadByte_stream {sc : SocksV5Connection} {b : Byte} {t : List Byte}
    (h : sc.stream = b :: t) : ∃ sc1, ReadByte sc = (.ok b, sc1) ∧ sc1.stream = t := by
  rcases sc with ⟨⟨rx, tx, log⟩, br⟩
  unfold SocksV5Connection.stream at h
  unfold ReadByte
  cases br with
  | cons b1 bs =>
    simp only [List.cons_append, List.cons.injEq] at h
    obtain ⟨rfl, rfl⟩ := h
    exact ⟨_, rfl, rfl⟩
  | nil =>
    cases rx with
    | nil => simp [pending] at h
    | cons s r =>
      simp only [pending, Segment.bytes, List.nil_append, List.cons_append, List.cons.injEq] at h
      obtain ⟨rfl, rfl⟩ := h
      exact ⟨_, rfl, rfl⟩

theorem Read_stream {sc : SocksV5Connection} {n : Nat} (hn : n ≠ 0) (hs : sc.stream ≠ []) :
    ∃ bs sc1, Read n sc = (.ok bs, sc1) ∧ bs ≠ [] ∧ bs.length ≤ n ∧
      sc.stream = bs ++ sc1.stream := by
  rcases sc with ⟨⟨rx, tx, log⟩, br⟩
  unfold SocksV5Connection.stream at hs
  unfold Read
  rw [if_neg hn]
  cases br with
  | cons b1 bs =>
    refine ⟨_, _, rfl, ?_, List.length_take_le _ _, ?_⟩
    · cases n with
      | zero => exact absurd rfl hn
      | succ k => simp
    · simp only [SocksV5Connection.stream]
      rw [← List.append_assoc, List.take_append_drop]
  | nil =>
    cases rx with
    | nil => simp [pending] at hs
    | cons s r =>
      refine ⟨_, _, rfl, ?_, List.length_take_le _ _, ?_⟩
      · cases n with
        | zero => exact absurd rfl hn
        | succ k => simp [Segment.bytes]
      · simp only [SocksV5Connection.stream, pending, List.nil_append]
        rw [← List.append_assoc, List.take_append_drop]

theorem ReadFullLoop_stream : ∀ (fuel : Nat) (got need t : List Byte) (sc : SocksV5Connection),
    sc.stream = need ++ t → need.length < fuel →
    ∃ sc1, ReadFullLoop (got.length + need.length) fuel got sc = (.ok (got ++ need), sc1) ∧
      sc1.stream = t := by
  intro fuel
  induction fuel with
  | zero => intro got need t sc _ hf; exact absurd hf (Nat.not_lt_zero _)
  | succ fuel ih =>
    intro got need t sc hs hf
    unfold ReadFullLoop
    by_cases hneed : need = []
    · subst hneed
      simp only [List.length_nil, Nat.add_zero, Nat.le_refl, if_true, List.append_nil]
      exact ⟨sc, rfl, by simpa using hs⟩
    · have hpos : 0 < need.length := List.length_pos.mpr hneed
      have hlt : ¬ got.length + need.length ≤ got.length := by omega
      rw [if_neg hlt]
      have hsz : got.length + need.length - got.length = need.length := by omega
      rw [hsz]
      have hne : sc.stream ≠ [] := by
        rw [hs]
        intro h0
        exact hneed (List.append_eq_nil.mp h0).1
      obtain ⟨bs, sc1, hr, hbne, hlen, hsplit⟩ := Read_stream (Nat.pos_iff_ne_zero.mp hpos) hne
      have hbpos : 0 < bs.length := List.length_pos.mpr hbne
      rw [hr]
      have hbs : bs = need.take bs.length := by
        have h1 : (bs ++ sc1.stream).take bs.length = (need ++ t).take bs.length := by
          rw [← hsplit, hs]
        rw [List.take_left, List.take_append_of_le_length hlen] at h1
        exact h1
      have hrest : sc1.stream = need.drop bs.length ++ t := by
        have h1 : (bs ++ sc1.stream).drop bs.length = (need ++ t).drop bs.length := by
          rw [← hsplit, hs]
        rw [List.drop_left, List.drop_append_of_le_length hlen] at h1
        exact h1
      have hfuel : (need.drop bs.length).length < fuel := by
        rw [List.length_drop]; omega
      obtain ⟨sc2, h2, hs2⟩ := ih (got ++ bs) (need.drop bs.length) t sc1 hrest hfuel
      have hsize : (got ++ bs).length + (need.drop bs.length).length
          = got.length + need.length := by
        rw [List.length_append, List.length_drop]; omega
      rw [hsize] at h2
      have hall : got ++ bs ++ need.drop bs.length = got ++ need := by
        rw [List.append_assoc]
        conv_lhs => rw [hbs]
        rw [List.length_take, Nat.min_eq_left hlen, List.take_append_drop]
      rw [hall] at h2
      exact ⟨sc2, h2, hs2⟩

/-- On a stream that holds the bytes, `io.ReadFull` returns exactly them, however the
connection delivers them. -/
theorem ReadFull_stream {sc : SocksV5Connection} {bs t : List Byte}
    (h : sc.stream = bs ++ t) :
    ∃ sc1, ReadFull bs.length sc = (.ok bs, sc1) ∧ sc1.stream = t := by
  have := ReadFullLoop_stream (bs.length + 1) [] bs t sc h (Nat.lt_succ_self _)
  simpa [ReadFull] using this

theorem emit_apply (e : Event) (sc : SocksV5Connection) :
    emit e sc = (.ok (), { sc with conn := { sc.conn with log := sc.conn.log ++ [e] } }) := rfl

theorem ReadMessage_negotiate_stream (env : Env) {sc : SocksV5Connection} {ver : Byte}
    {methods t : List Byte} (h : sc.stream = ver :: methods.length :: (methods ++ t)) :
    ∃ sc1, ReadMessage env .MessageNegotiate sc =
        (.ok (.negotiate { Version := ver, NoMethods := methods.length, Methods := methods }), sc1)
      ∧ sc1.stream = t := by
  have h0 : (emit (.read .MessageNegotiate) sc).2.stream = ver :: methods.length :: (methods ++ t) := h
  obtain ⟨sc1, h1, s1⟩ := ReadByte_stream h0
  obtain ⟨sc2, h2, s2⟩ := ReadByte_stream s1
  obtain ⟨sc3, h3, s3⟩ := ReadFull_stream s2
  refine ⟨sc3, ?_, s3⟩
  rw [emit_apply] at h1
  simp only [ReadMessage, bind_apply, emit_apply, h1, h2, h3, pure_apply]

theorem Flush_ok {sc : SocksV5Connection} (bw : List Byte) (h : 0 < sc.conn.tx) :
    Flush bw sc = (.ok (),
      { sc with conn := { sc.conn with tx := sc.conn.tx - 1, log := sc.conn.log ++ [.write bw] } }) := by
  unfold Flush
  cases htx : sc.conn.tx with
  | zero => omega
  | succ k => simp

theorem quiet_extends {α : Type} {m : Step α} (h : Quiet m) : Extends m :=
  ⟨fun sc => ⟨[], by simpa using (h.all sc).1⟩⟩

theorem extends_bind {α β : Type} {m : Step α} {k : α → Step β}
    (hm : Extends m) (hk : ∀ a, Extends (k a)) : Extends (m >>= k) := by
  refine ⟨fun sc => ?_⟩
  rw [bind_apply]
  obtain ⟨r1, h⟩ := hm.all sc
  rcases hr : m sc with ⟨r, sc1⟩
  rw [hr] at h
  cases r with
  | ok a =>
    obtain ⟨r2, h2⟩ := (hk a).all sc1
    have h1 : sc1.conn.log = sc.conn.log ++ r1 := h
    exact ⟨r1 ++ r2, by rw [h2, h1, List.append_assoc]⟩
  | error e => exact ⟨r1, h⟩

theorem extends_emit (e : Event) : Extends (emit e) := ⟨fun _ => ⟨[e], rfl⟩⟩

theorem extends_Flush (bw : List Byte) : Extends (Flush bw) := by
  refine ⟨fun sc => ?_⟩
  unfold Socks.Flush
  split
  · exact ⟨[], by simp⟩
  · exact ⟨[.write bw], rfl⟩

theorem extends_WriteMessage (t : SocksMessageType) (args : List (ConnectionArgs → ConnectionArgs)) :
    Extends (WriteMessage t args) := by
  cases t <;> first
    | exact extends_Flush _
    | exact quiet_extends (quiet_fail _)

theorem extends_ReadMessage (env : Env) (t : SocksMessageType) : Extends (ReadMessage env t) :=
  ⟨fun sc => ⟨[.read t], (ReadMessage_log env t sc).1⟩⟩

theorem quiet_wgWait (env : Env) (network target : String) :
    Quiet (wgWait env network target) := by
  refine ⟨fun sc => ?_⟩
  unfold wgWait
  split <;> exact ⟨rfl, rfl⟩

theorem extends_request (env : Env) : Extends (Serve.request env) := by
  unfold Serve.request
  refine extends_bind (extends_ReadMessage _ _) (fun m => ?_)
  cases m <;>
    repeat (first
      | exact quiet_extends (quiet_fail _)
      | exact quiet_extends (quiet_pure _)
      | exact quiet_extends (quiet_liftExcept _)
      | exact quiet_extends (quiet_wgWait _ _ _)
      | exact extends_emit _
      | exact extends_WriteMessage _ _
      | (apply extends_bind)
      | (intro _)
      | split)

/-- The log of `Serve` is the log of the connection its steps end with. -/
theorem ofStep_log (p : Except Err Bool × SocksV5Connection) :
    (Outcome.ofStep p).log = p.2.conn.log := by
  rcases p with ⟨r, sc⟩
  cases r with
  | error e => rfl
  | ok b => cases b <;> rfl

/-- After its steps `Serve` has returned or is blocked in the relay: it has not panicked. -/
theorem ofStep_cases (p : Except Err Bool × SocksV5Connection) :
    (∃ err, Outcome.ofStep p = .returned err p.2) ∨ Outcome.ofStep p = .blocked p.2 := by
  rcases p with ⟨r, sc⟩
  cases r with
  | error e => exact Or.inl ⟨some e, rfl⟩
  | ok b =>
    cases b with
    | true => exact Or.inl ⟨none, rfl⟩
    | false => exact Or.inr rfl

theorem ofStep_extends {m : Step Bool} (hm : Extends m) (sc : SocksV5Connection) :
    ∃ rest, (Outcome.ofStep (m sc)).log = sc.conn.log ++ rest := by
  obtain ⟨rest, h⟩ := hm.all sc
  exact ⟨rest, by rw [ofStep_log, h]⟩

theorem post_pure {α : Type} {P : α → Prop} {a : α} (h : P a) : Post (pure a : Step α) P :=
  ⟨fun _ _ _ he => by cases he; exact h⟩

theorem post_fail {α : Type} {P : α → Prop} (e : Err) : Post (fail e : Step α) P :=
  ⟨fun _ _ _ he => by cases he⟩

theorem post_bind {α β : Type} {m : Step α} {k : α → Step β} {P : β → Prop}
    (hk : ∀ a, Post (k a) P) : Post (m >>= k) P := by
  refine ⟨fun sc b sc2 he => ?_⟩
  rw [bind_apply] at he
  rcases hr : m sc with ⟨r, sc1⟩
  rw [hr] at he
  cases r with
  | ok a => exact (hk a).all sc1 b sc2 he
  | error e => cases he

/-- The network of a decoded request is "tcp" for CONNECT and "udp" for every other command. -/
theorem ReadMessage_request_network (env : Env) {sc sc1 : SocksV5Connection} {msg : SocksV5Connect}
    (h : ReadMessage env .MessageRequest sc = (.ok (.connect msg), sc1)) :
    msg.Network = if msg.Command = CMD_CONNECT then "tcp" else "udp" := by
  have hp : Post (ReadMessage env .MessageRequest)
      (fun m => ∀ c, m = .connect c → c.Network = if c.Command = CMD_CONNECT then "tcp" else "udp") := by
    unfold ReadMessage
    refine post_bind (fun _ => ?_)
    refine post_bind (fun _ => ?_)
    refine post_bind (fun _ => ?_)
    refine post_bind (fun _ => ?_)
    refine post_bind (fun _ => ?_)
    refine post_bind (fun _ => ?_)
    refine post_bind (fun _ => ?_)
    refine post_bind (fun _ => ?_)
    refine post_pure ?_
    intro c hc
    cases hc
    rfl
  exact hp.all _ _ _ h msg rfl


/-- The reply `WriteMessage(MessageRequestSuccess, WithAddressType(atyp))` puts on the wire. -/
theorem WriteMessage_success_ok {sc : SocksV5Connection} (atyp : Byte) (h : 0 < sc.conn.tx) :
    WriteMessage .MessageRequestSuccess [WithAddressType atyp] sc = (.ok (),
      { sc with conn := { sc.conn with
          tx := sc.conn.tx - 1,
          log := sc.conn.log ++ [.write ([0x05, 0x00, 0x00] ++
            (if atyp = ATYP_IPV4 then [0x01, 0x00, 0x00, 0x00, 0x00] else []) ++ [0x00, 0x00])] } }) := by
  simp only [WriteMessage, List.foldl, WithAddressType]
  rw [Flush_ok _ h]
  split <;> rfl

theorem Serve_request_v5 (env : Env) {sc sc1 sc2 : SocksV5Connection} {msg : SocksV5Connect}
    (hn : Serve.negotiate env sc = (.ok (), sc1))
    (hr : ReadMessage env .MessageRequest sc1 = (.ok (.connect msg), sc2))
    (hv : msg.Version = SOCKS5_VERSION) (htx : 0 < sc2.conn.tx) :
    ∃ sc3, Serve env (some sc) =
        (match env.Dial msg.Network (msg.Address ++ ":" ++ toString msg.Port) with
          | .error e => .returned (some e) sc3
          | .ok _ =>
            match env.Relay msg.Network (msg.Address ++ ":" ++ toString msg.Port) sc2.conn.rx with
            | some _ => .returned none sc3
            | none => .blocked sc3) ∧
      sc3.conn.log = sc2.conn.log ++
        .write ([0x05, 0x00, 0x00] ++
            (if msg.Atyp = ATYP_IPV4 then [0x01, 0x00, 0x00, 0x00, 0x00] else []) ++ [0x00, 0x00]) ::
        .dial msg.Network (msg.Address ++ ":" ++ toString msg.Port) ::
        (match env.Dial msg.Network (msg.Address ++ ":" ++ toString msg.Port) with
          | .error _ => []
          | .ok _ =>
            match env.Relay msg.Network (msg.Address ++ ":" ++ toString msg.Port) sc2.conn.rx with
            | some _ => [.relay, .closeClient, .closeTarget]
            | none => [.relay]) := by
  simp only [Serve, bind_apply, hn, Serve.request, hr, hv, if_true,
    WriteMessage_success_ok _ htx, emit_apply]
  cases env.Dial msg.Network (msg.Address ++ ":" ++ toString msg.Port) with
  | error e => exact ⟨_, rfl, by simp [liftExcept, fail, Outcome.ofStep]⟩
  | ok u =>
    simp only [liftExcept, pure_apply, wgWait]
    cases env.Relay msg.Network (msg.Address ++ ":" ++ toString msg.Port) sc2.conn.rx with
    | none => exact ⟨_, rfl, by simp⟩
    | some left => exact ⟨_, rfl, by simp⟩

/-! ## The claims on the handshake -/

theorem bind_log_extends {α β : Type} {m : Step α} {k : α → Step β}
    (hk : ∀ a, Extends (k a)) (sc : SocksV5Connection) :
    ∃ rest, ((m >>= k) sc).2.conn.log = (m sc).2.conn.log ++ rest := by
  rw [bind_apply]
  rcases m sc with ⟨r, sc1⟩
  cases r with
  | ok a => exact (hk a).all sc1
  | error e => exact ⟨[], by simp⟩

/-- The second half of `Serve` starts by asking for the ConnectRequest. -/
theorem request_log (env : Env) (sc : SocksV5Connection) :
    ∃ rest, (Serve.request env sc).2.conn.log = sc.conn.log ++ .read .MessageRequest :: rest := by
  have h : ∃ rest, (Serve.request env sc).2.conn.log =
      (ReadMessage env .MessageRequest sc).2.conn.log ++ rest := by
    unfold Serve.request
    apply bind_log_extends
    intro m
    cases m <;>
      repeat (first
        | exact quiet_extends (quiet_fail _)
        | exact quiet_extends (quiet_pure _)
        | exact quiet_extends (quiet_liftExcept _)
        | exact quiet_extends (quiet_wgWait _ _ _)
        | exact extends_emit _
        | exact extends_WriteMessage _ _
        | (apply extends_bind)
        | (intro _)
        | split)
  obtain ⟨rest, h⟩ := h
  rw [(ReadMessage_log env .MessageRequest sc).1] at h
  exact ⟨rest, by rw [h]; simp⟩

/-- Claim C1. A negotiation request with version 05 whose method list contains 02, wherever
and next to whatever else, makes `Serve` select username/password: as long as the client
accepts one write, the first thing written is exactly 05 02 and the next message asked for is
the AuthRequest. (`Serve` then returns, or stays in a relay that never ends; it does not
panic.) -/
theorem Serve_prefers_username_password (env : Env) (sc : SocksV5Connection) (methods t : List Byte)
    (hs : sc.stream = SOCKS5_VERSION :: methods.length :: (methods ++ t))
    (hm : AUTH_USERNAME_PASS ∈ methods) (htx : 0 < sc.conn.tx) :
    ∃ sc1 rest,
      ((∃ err, Serve env (some sc) = .returned err sc1) ∨ Serve env (some sc) = .blocked sc1) ∧
      sc1.conn.log = sc.conn.log ++
        .read .MessageNegotiate :: .write [0x05, 0x02] :: .read .MessageUserPassAuth :: rest := by
  obtain ⟨sc1, h1, _⟩ := ReadMessage_negotiate_stream env hs
  have hl1 := ReadMessage_log env .MessageNegotiate sc
  rw [h1] at hl1
  have hlog1 : sc1.conn.log = sc.conn.log ++ [.read .MessageNegotiate] := hl1.1
  have htx1 : 0 < sc1.conn.tx := by
    have h2 : sc1.conn.tx = sc.conn.tx := hl1.2
    omega
  have hc : methods.contains AUTH_USERNAME_PASS = true := by simpa using hm
  have key : (do Serve.negotiate env; Serve.request env : Step Bool) sc =
      (ReadMessage env .MessageUserPassAuth >>= fun _ =>
        WriteMessage .MessageUserPassAuthSuccess [] >>= fun _ => Serve.request env)
        (Flush [0x05, 0x02] sc1).2 := by
    simp only [Serve.negotiate, bind_apply, h1, hc, if_true, WriteMessage, Flush_ok _ htx1]
    rcases ReadMessage env .MessageUserPassAuth _ with ⟨r, sc3⟩
    cases r <;> rfl
  have hext : Extends (WriteMessage .MessageUserPassAuthSuccess [] >>= fun _ => Serve.request env) :=
    extends_bind (extends_WriteMessage _ _) (fun _ => extends_request env)
  have hserve : Serve env (some sc) = Outcome.ofStep
      ((ReadMessage env .MessageUserPassAuth >>= fun _ =>
        WriteMessage .MessageUserPassAuthSuccess [] >>= fun _ => Serve.request env)
        (Flush [0x05, 0x02] sc1).2) := by
    simp only [Serve, key]
  have hl2 := ReadMessage_log env .MessageUserPassAuth (Flush [0x05, 0x02] sc1).2
  rcases hr : ReadMessage env .MessageUserPassAuth (Flush [0x05, 0x02] sc1).2 with ⟨r, sc3⟩
  rw [hr] at hl2
  rw [hserve, bind_apply, hr]
  have hlog3 : sc3.conn.log = sc.conn.log ++
      [.read .MessageNegotiate, .write [0x05, 0x02], .read .MessageUserPassAuth] := by
    have h3 : sc3.conn.log = (Flush [0x05, 0x02] sc1).2.conn.log ++ [.read .MessageUserPassAuth] :=
      hl2.1
    rw [h3, Flush_ok _ htx1]
    simp [hlog1]
  cases r with
  | error e => exact ⟨sc3, [], Or.inl ⟨some e, rfl⟩, by simpa using hlog3⟩
  | ok a =>
    obtain ⟨rest, hlog4⟩ := hext.all sc3
    exact ⟨_, rest, ofStep_cases _, by rw [hlog4, hlog3]; simp⟩

/-- Claim C1 at the method list 00 02 02. -/
theorem Serve_prefers_username_password_witness :
    offersBoth.stream = SOCKS5_VERSION :: [0x00, 0x02, 0x02].length :: ([0x00, 0x02, 0x02] ++ []) ∧
    AUTH_USERNAME_PASS ∈ [0x00, 0x02, 0x02] ∧ 0 < offersBoth.conn.tx ∧
    ∃ sc1 rest,
      ((∃ err, Serve envReachable (some offersBoth) = .returned err sc1) ∨
        Serve envReachable (some offersBoth) = .blocked sc1) ∧
      sc1.conn.log = offersBoth.conn.log ++
        .read .MessageNegotiate :: .write [0x05, 0x02] :: .read .MessageUserPassAuth :: rest :=
  ⟨by decide, by decide, by decide,
    Serve_prefers_username_password envReachable offersBoth [0x00, 0x02, 0x02] []
      (by decide) (by decide) (by decide)⟩

/-- Claim C2, on the code: a client that offers only GSSAPI gets 05 FF, and then `Serve`
does not stop: it asks for the ConnectRequest, answers it with success, dials and relays. -/
theorem Serve_no_methods_reads_request :
    Serve envReachable (some offersGssapi) =
      .returned none
        { conn :=
            { rx := [], tx := 1,
              log := [.read .MessageNegotiate, .write [0x05, 0xFF], .read .MessageRequest,
                .write [0x05, 0x00, 0x00, 0x01, 0x00, 0x00, 0x00, 0x00, 0x00, 0x00],
                .dial "tcp" "127.0.0.1:80", .relay, .closeClient, .closeTarget] },
          br := [] } := by
  decide

/-- Claim C3 fails for BIND: the only reply to the request is a success reply (code 00, not
07), and the target is dialed, over "udp". -/
theorem Serve_bind_counterexample :
    connectReplies (Serve envReachable (some asksBind)).log = [REP_SUCCESS] ∧
    dials (Serve envReachable (some asksBind)).log = [("udp", "127.0.0.1:80")] := by
  decide

/-- Claim C3, amended. A request with version 05 whose command is not CONNECT is decoded
with network "udp"; `Serve` answers it with the success reply (code 00) and dials the target
over "udp". After the dial nothing is written: nothing at all follows when the dial fails,
and when it succeeds the relay is started, followed by the two closes only if the relay
ends. No reply with code 07 is written. -/
theorem Serve_other_command_dials_udp (env : Env) (sc sc1 sc2 : SocksV5Connection)
    (msg : SocksV5Connect)
    (hn : Serve.negotiate env sc = (.ok (), sc1))
    (hr : ReadMessage env .MessageRequest sc1 = (.ok (.connect msg), sc2))
    (hv : msg.Version = SOCKS5_VERSION) (hc : msg.Command ≠ CMD_CONNECT)
    (htx : 0 < sc2.conn.tx) :
    msg.Network = "udp" ∧
    ∃ sc3 rest,
      ((∃ err, Serve env (some sc) = .returned err sc3) ∨ Serve env (some sc) = .blocked sc3) ∧
      sc3.conn.log = sc2.conn.log ++
        .write ([0x05, REP_SUCCESS, RSV] ++
            (if msg.Atyp = ATYP_IPV4 then [0x01, 0x00, 0x00, 0x00, 0x00] else []) ++ [0x00, 0x00]) ::
        .dial "udp" (msg.Address ++ ":" ++ toString msg.Port) :: rest ∧
      (rest = [] ∨ rest = [.relay] ∨ rest = [.relay, .closeClient, .closeTarget]) := by
  have hnet : msg.Network = "udp" := by
    rw [ReadMessage_request_network env hr, if_neg hc]
  refine ⟨hnet, ?_⟩
  obtain ⟨sc3, h3, hlog⟩ := Serve_request_v5 env hn hr hv htx
  rw [hnet] at h3 hlog
  cases hd : env.Dial "udp" (msg.Address ++ ":" ++ toString msg.Port) with
  | error e =>
    simp only [hd] at h3 hlog
    exact ⟨sc3, [], Or.inl ⟨some e, h3⟩, hlog, Or.inl rfl⟩
  | ok u =>
    simp only [hd] at h3 hlog
    cases hrel : env.Relay "udp" (msg.Address ++ ":" ++ toString msg.Port) sc2.conn.rx with
    | none =>
      simp only [hrel] at h3 hlog
      exact ⟨sc3, [.relay], Or.inr h3, hlog, Or.inr (Or.inl rfl)⟩
    | some left =>
      simp only [hrel] at h3 hlog
      exact ⟨sc3, [.relay, .closeClient, .closeTarget], Or.inl ⟨none, h3⟩, hlog,
        Or.inr (Or.inr rfl)⟩

/-- Claim C3, amended, at a BIND request for 127.0.0.1:80. In the environment where the dial
succeeds and a relay over "udp" never ends, `Serve` does not return: the log ends with the
relay started, and nothing is closed. -/
theorem Serve_other_command_dials_udp_witness :
    (∃ sc3 rest,
      ((∃ err, Serve envReachable (some asksBind) = .returned err sc3) ∨
        Serve envReachable (some asksBind) = .blocked sc3) ∧
      sc3.conn.log =
        [.read .MessageNegotiate, .write [0x05, 0x00], .read .MessageRequest] ++
        .write ([0x05, REP_SUCCESS, RSV] ++
            (if (1 : Byte) = ATYP_IPV4 then [0x01, 0x00, 0x00, 0x00, 0x00] else []) ++ [0x00, 0x00]) ::
        .dial "udp" ("127.0.0.1" ++ ":" ++ toString 80) :: rest ∧
      (rest = [] ∨ rest = [.relay] ∨ rest = [.relay, .closeClient, .closeTarget])) ∧
    Serve envReachable (some asksBind) =
      .blocked
        { conn :=
            { rx := [], tx := 1,
              log := [.read .MessageNegotiate, .write [0x05, 0x00], .read .MessageRequest,
                      .write [0x05, 0x00, 0x00, 0x01, 0x00, 0x00, 0x00, 0x00, 0x00, 0x00],
                      .dial "udp" "127.0.0.1:80", .relay] },
          br := [] } :=
  ⟨(Serve_other_command_dials_udp envReachable asksBind
    { conn :=
        { rx := [bindLocalhost], tx := 2,
          log := [.read .MessageNegotiate, .write [0x05, 0x00]] },
      br := [] }
    { conn :=
        { rx := [], tx := 2,
          log := [.read .MessageNegotiate, .write [0x05, 0x00], .read .MessageRequest] },
      br := [] }
    { Version := 0x05, Command := CMD_BIND, Rsv := 0x00, Atyp := 0x01, Address := "127.0.0.1",
      Port := 80, Network := "udp" }
    (by decide) (by decide) (by decide) (by decide) (by decide)).2, by decide⟩

/-- Claim C4 fails: for credentials the authenticator rejects (user "user", password "bad"),
the session log does not show what the specification asks for. The AuthReply is 05 00 and the
ConnectRequest is read. -/
theorem Serve_auth_reply_counterexample :
    ¬ AuthReplyReflects false (Serve envReachable (some sendsBadPassword)).log := by
  intro h
  obtain ⟨⟨ver, status, hreply, hstatus⟩, _⟩ := h.1 rfl
  have hcode : authReply (Serve envReachable (some sendsBadPassword)).log =
      some [0x05, USERPASS_SUCCESS] := by decide
  rw [hcode] at hreply
  simp only [Option.some.injEq, List.cons.injEq, and_true] at hreply
  exact hstatus hreply.2.symm

/-- Claim C4, amended. Once username/password is selected and an AuthRequest has been decoded,
whatever it contains, `Serve` validates nothing: given the client accepts the writes, it
writes the AuthReply 05 00 (success status) and goes on to ask for the ConnectRequest.
(`Serve` then returns, or stays in a relay that never ends; it does not panic.) -/
theorem Serve_auth_reply_always_success (env : Env) (sc sc1 sc3 : SocksV5Connection)
    (msg : SocksV5Negotiate) (auth : SocksMessage)
    (h1 : ReadMessage env .MessageNegotiate sc = (.ok (.negotiate msg), sc1))
    (hv : msg.Version = SOCKS5_VERSION) (hm : AUTH_USERNAME_PASS ∈ msg.Methods)
    (htx : 1 < sc1.conn.tx)
    (h2 : ReadMessage env .MessageUserPassAuth (WriteMessage .MessageUserPassAuth [] sc1).2 =
      (.ok auth, sc3)) :
    ∃ sc4 rest,
      ((∃ err, Serve env (some sc) = .returned err sc4) ∨ Serve env (some sc) = .blocked sc4) ∧
      sc4.conn.log = sc3.conn.log ++
        .write [0x05, USERPASS_SUCCESS] :: .read .MessageRequest :: rest := by
  have htx1 : 0 < sc1.conn.tx := by omega
  have hc : msg.Methods.contains AUTH_USERNAME_PASS = true := by simpa using hm
  have h2f : ReadMessage env .MessageUserPassAuth (Flush [0x05, 0x02] sc1).2 = (.ok auth, sc3) := h2
  have hl := ReadMessage_log env .MessageUserPassAuth (Flush [0x05, 0x02] sc1).2
  rw [h2f, Flush_ok _ htx1] at hl
  have htx3 : 0 < sc3.conn.tx := by
    have h3 : sc3.conn.tx = sc1.conn.tx - 1 := hl.2
    omega
  rw [Flush_ok _ htx1] at h2f
  have key : (do Serve.negotiate env; Serve.request env : Step Bool) sc =
      Serve.request env (Flush [0x05, USERPASS_SUCCESS] sc3).2 := by
    simp only [Serve.negotiate, bind_apply, h1, hv, hc, if_true, WriteMessage, Flush_ok _ htx1,
      h2f, Flush_ok _ htx3]
  obtain ⟨rest, hrest⟩ := request_log env (Flush [0x05, USERPASS_SUCCESS] sc3).2
  refine ⟨(Serve.request env (Flush [0x05, USERPASS_SUCCESS] sc3).2).2, rest, ?_, ?_⟩
  · simp only [Serve, key]
    exact ofStep_cases _
  · rw [hrest, Flush_ok _ htx3]
    simp

/-- Claim C4, amended, at user "user" with password "bad". -/
theorem Serve_auth_reply_always_success_witness :
    ∃ sc4 rest,
      ((∃ err, Serve envReachable (some sendsBadPassword) = .returned err sc4) ∨
        Serve envReachable (some sendsBadPassword) = .blocked sc4) ∧
      sc4.conn.log =
        [.read .MessageNegotiate, .write [0x05, 0x02], .read .MessageUserPassAuth] ++
        .write [0x05, USERPASS_SUCCESS] :: .read .MessageRequest :: rest :=
  Serve_auth_reply_always_success envReachable sendsBadPassword
    { conn :=
        { rx := [⟨0x01, [0x04, 0x75, 0x73, 0x65, 0x72, 0x03, 0x62, 0x61, 0x64]⟩, connectLocalhost],
          tx := 3, log := [.read .MessageNegotiate] },
      br := [] }
    { conn :=
        { rx := [connectLocalhost], tx := 2,
          log := [.read .MessageNegotiate, .write [0x05, 0x02], .read .MessageUserPassAuth] },
      br := [] }
    { Version := 0x05, NoMethods := 0x01, Methods := [0x02] }
    (.authenticate { Version := 0x01, Username := [0x62, 0x61, 0x64, 0x72], Password := [0, 0, 0] })
    (by decide) (by decide) (by decide) (by decide) (by decide)

/-- Claim C5, on the code: for the AuthRequest 01 02 61 62 03 78 79 7A (user "ab", password
"xyz") `ReadMessage` returns the user name 78 79 (the first two password bytes, read into
the user-name buffer) and the password 00 00 00 (a buffer nothing was read into), and leaves
the last password byte 7A unread. -/
theorem ReadMessage_auth_password_into_username :
    ReadMessage envReachable .MessageUserPassAuth
        (client [⟨0x01, [0x02, 0x61, 0x62, 0x03, 0x78, 0x79, 0x7A]⟩]) =
      (.ok (.authenticate { Version := 0x01, Username := [0x78, 0x79], Password := [0x00, 0x00, 0x00] }),
        { conn := { rx := [], tx := 3, log := [.read .MessageUserPassAuth] }, br := [0x7A] }) := by
  decide

/-- Claim C6 fails: with a dial that fails, the client has been sent the success reply (code
00) and no other reply, and `Serve` returns the dial error. -/
theorem Serve_dial_failure_counterexample :
    Serve envUnreachable (some asksConnect) =
      .returned (some .dial)
        { conn :=
            { rx := [], tx := 1,
              log := [.read .MessageNegotiate, .write [0x05, 0x00], .read .MessageRequest,
                .write [0x05, 0x00, 0x00, 0x01, 0x00, 0x00, 0x00, 0x00, 0x00, 0x00],
                .dial "tcp" "127.0.0.1:80"] },
          br := [] } ∧
    connectReplies (Serve envUnreachable (some asksConnect)).log = [REP_SUCCESS] := by
  decide

/-- Claim C6, amended. For a CONNECT request with version 05, `Serve` writes the success reply
(code 00) before it dials; when the dial fails nothing more is written, no failure reply
either, and `Serve` returns the dial error. -/
theorem Serve_success_reply_before_dial (env : Env) (sc sc1 sc2 : SocksV5Connection)
    (msg : SocksV5Connect) (e : Err)
    (hn : Serve.negotiate env sc = (.ok (), sc1))
    (hr : ReadMessage env .MessageRequest sc1 = (.ok (.connect msg), sc2))
    (hv : msg.Version = SOCKS5_VERSION) (hc : msg.Command = CMD_CONNECT)
    (htx : 0 < sc2.conn.tx)
    (hd : env.Dial "tcp" (msg.Address ++ ":" ++ toString msg.Port) = .error e) :
    ∃ sc3, Serve env (some sc) = .returned (some e) sc3 ∧
      sc3.conn.log = sc2.conn.log ++
        [.write ([0x05, REP_SUCCESS, RSV] ++
            (if msg.Atyp = ATYP_IPV4 then [0x01, 0x00, 0x00, 0x00, 0x00] else []) ++ [0x00, 0x00]),
         .dial "tcp" (msg.Address ++ ":" ++ toString msg.Port)] := by
  have hnet : msg.Network = "tcp" := by
    rw [ReadMessage_request_network env hr, if_pos hc]
  obtain ⟨sc3, h3, hlog⟩ := Serve_request_v5 env hn hr hv htx
  rw [hnet] at h3 hlog
  simp only [hd] at h3 hlog
  exact ⟨sc3, h3, hlog⟩

/-- Claim C6, amended, at a CONNECT to 127.0.0.1:80 whose dial fails. -/
theorem Serve_success_reply_before_dial_witness :
    ∃ sc3, Serve envUnreachable (some asksConnect) = .returned (some .dial) sc3 ∧
      sc3.conn.log =
        [.read .MessageNegotiate, .write [0x05, 0x00], .read .MessageRequest] ++
        [.write ([0x05, REP_SUCCESS, RSV] ++
            (if (1 : Byte) = ATYP_IPV4 then [0x01, 0x00, 0x00, 0x00, 0x00] else []) ++ [0x00, 0x00]),
         .dial "tcp" ("127.0.0.1" ++ ":" ++ toString 80)] :=
  Serve_success_reply_before_dial envUnreachable asksConnect
    { conn :=
        { rx := [connectLocalhost], tx := 2,
          log := [.read .MessageNegotiate, .write [0x05, 0x00]] },
      br := [] }
    { conn :=
        { rx := [], tx := 2,
          log := [.read .MessageNegotiate, .write [0x05, 0x00], .read .MessageRequest] },
      br := [] }
    { Version := 0x05, Command := CMD_CONNECT, Rsv := 0x00, Atyp := 0x01, Address := "127.0.0.1",
      Port := 80, Network := "tcp" }
    .dial
    (by decide) (by decide) (by decide) (by decide) (by decide) (by decide)

/-- Claim C7, on the code: the request 05 01 00 05 00 50, whose address type 05 is none of
01, 03, 04, is decoded without error into a message with the empty address, and the two
bytes after the address type are read as the port, 80. -/
theorem ReadMessage_unknown_atyp_empty_address :
    ReadMessage envReachable .MessageRequest (client [⟨0x05, [0x01, 0x00, 0x05, 0x00, 0x50]⟩]) =
      (.ok (.connect
          { Version := 0x05, Command := 0x01, Rsv := 0x00, Atyp := 0x05, Address := "",
            Port := 80, Network := "tcp" }),
        { conn := { rx := [], tx := 3, log := [.read .MessageRequest] }, br := [] }) := by
  decide

/-- Claim C8, on the code: the stream 05 01 00 01 7F 00 00 01 1F ends one byte before the
end of the request, and `ReadMessage` returns a message all the same, with the port 1F 00;
the stream 01 02 61 62 02 63 ends one byte before the end of the AuthRequest, and
`ReadMessage` returns a message as well. -/
theorem ReadMessage_truncated_returns_message :
    (ReadMessage envReachable .MessageRequest
        (client [⟨0x05, [0x01, 0x00, 0x01, 0x7F, 0x00, 0x00, 0x01, 0x1F]⟩])).1 =
      .ok (.connect
        { Version := 0x05, Command := 0x01, Rsv := 0x00, Atyp := 0x01, Address := "127.0.0.1",
          Port := 0x1F00, Network := "tcp" }) ∧
    (ReadMessage envReachable .MessageUserPassAuth
        (client [⟨0x01, [0x02, 0x61, 0x62, 0x02, 0x63]⟩])).1 =
      .ok (.authenticate { Version := 0x01, Username := [0x63, 0x62], Password := [0x00, 0x00] }) := by
  decide

/-- Claim C9, on the code: when the first byte of the client stream is not 05, the handler
calls `Serve` on the nil connection and the goroutine panics. -/
theorem StartHandler_other_version_panics (env : Env) (conn : Conn) (ver : Byte) (t : List Byte)
    (hs : pending conn.rx = ver :: t) (hv : ver ≠ SOCKS5_VERSION) :
    ∃ c, StartHandler env conn = .crashed c := by
  rcases conn with ⟨rx, tx, log⟩
  cases rx with
  | nil => simp [pending] at hs
  | cons s r =>
    simp only [pending, Segment.bytes, List.cons_append, List.cons.injEq] at hs
    obtain ⟨rfl, _⟩ := hs
    exact ⟨Close { rx := r, tx := tx, log := log },
      by simp [StartHandler, ReadByte, UnreadByte, hv, Serve]⟩

/-- Claim C9, on the code, at a SOCKS4 client: the handler panics. -/
theorem StartHandler_other_version_panics_witness :
    pending socks4Client.rx = 0x04 :: [0x01, 0x00, 0x50, 0x7F, 0x00, 0x00, 0x01, 0x00] ∧
    (0x04 : Byte) ≠ SOCKS5_VERSION ∧
    ∃ c, StartHandler envReachable socks4Client = .crashed c :=
  ⟨by decide, by decide,
    StartHandler_other_version_panics envReachable socks4Client 0x04
      [0x01, 0x00, 0x50, 0x7F, 0x00, 0x00, 0x01, 0x00] (by decide) (by decide)⟩

/-- Claim C10, on the code: after a negotiation request with version 04 `Serve` writes no
negotiation reply and returns no error: it asks for the ConnectRequest, answers it with
success, dials the target and relays. -/
theorem Serve_other_version_skips_negotiation :
    Serve envReachable (some negotiatesV4) =
      .returned none
        { conn :=
            { rx := [], tx := 2,
              log := [.read .MessageNegotiate, .read .MessageRequest,
                .write [0x05, 0x00, 0x00, 0x01, 0x00, 0x00, 0x00, 0x00, 0x00, 0x00],
                .dial "tcp" "127.0.0.1:80", .relay, .closeClient, .closeTarget] },
          br := [] } := by
  decide

/-! ## Further lemmas: buffered reads, closes -/

theorem ReadByte_buffered {sc : SocksV5Connection} {b : Byte} {t : List Byte}
    (h : sc.br = b :: t) : ReadByte sc = (.ok b, { sc with br := t }) := by
  unfold ReadByte
  rw [h]

theorem Read_buffered {sc : SocksV5Connection} {bs t : List Byte}
    (h : sc.br = bs ++ t) (hne : bs ≠ []) :
    Read bs.length sc = (.ok bs, { sc with br := t }) := by
  unfold Read
  have hn : bs.length ≠ 0 := fun h0 => hne (List.length_eq_zero.mp h0)
  rw [if_neg hn]
  cases hb : sc.br with
  | nil =>
    rw [hb] at h
    exact absurd (List.append_eq_nil.mp h.symm).1 hne
  | cons x xs =>
    simp only
    rw [← hb, h, List.take_left, List.drop_left]

theorem ReadFull_buffered {sc : SocksV5Connection} {bs t : List Byte}
    (h : sc.br = bs ++ t) (hne : bs ≠ []) :
    ReadFull bs.length sc = (.ok bs, { sc with br := t }) := by
  have hpos : 0 < bs.length := List.length_pos.mpr hne
  obtain ⟨k, hk⟩ : ∃ k, bs.length = k + 1 := ⟨bs.length - 1, by omega⟩
  unfold ReadFull
  rw [hk]
  unfold ReadFullLoop
  simp only [List.length_nil, Nat.le_zero_eq, Nat.add_one_ne_zero, if_false, Nat.sub_zero]
  rw [← hk, Read_buffered h hne]
  simp only [List.nil_append]
  rw [hk]
  unfold ReadFullLoop
  simp [hk]

/-- The first byte at hand is what `ReadByte` returns; the rest at hand is then buffered. -/
theorem ReadByte_available {sc : SocksV5Connection} {b : Byte} {t : List Byte}
    (h : sc.available = b :: t) :
    ∃ sc1, ReadByte sc = (.ok b, sc1) ∧ sc1.br = t ∧ sc.stream = b :: sc1.stream ∧
      sc1.conn.tx = sc.conn.tx ∧ sc1.conn.log = sc.conn.log := by
  rcases sc with ⟨⟨rx, tx, log⟩, br⟩
  unfold SocksV5Connection.available at h
  unfold ReadByte
  cases br with
  | cons b1 bs =>
    simp only [List.cons.injEq] at h
    obtain ⟨rfl, rfl⟩ := h
    exact ⟨_, rfl, rfl, rfl, rfl, rfl⟩
  | nil =>
    cases rx with
    | nil => simp at h
    | cons s r =>
      simp only [Segment.bytes, List.cons.injEq] at h
      obtain ⟨rfl, rfl⟩ := h
      exact ⟨_, rfl, rfl, rfl, rfl, rfl⟩

theorem IPString_ipv4 (a0 a1 a2 a3 : Byte) :
    IPString [a0, a1, a2, a3] =
      toString a0 ++ "." ++ toString a1 ++ "." ++ toString a2 ++ "." ++ toString a3 := by
  simp [IPString, To4, dotted]

theorem handshake_counts (q : List Event) (h : q.all Event.isHandshake = true) :
    dials q = [] ∧ q.count .closeClient = 0 ∧ q.count .closeTarget = 0 := by
  induction q with
  | nil => exact ⟨rfl, rfl, rfl⟩
  | cons e q ih =>
    simp only [List.all_cons, Bool.and_eq_true] at h
    obtain ⟨d, c1, c2⟩ := ih h.2
    cases e <;> simp_all [Event.isHandshake, dials, List.count_cons]

theorem opened_append (env : Env) (q r : List Event) :
    opened env (q ++ r) = opened env q + opened env r := by
  simp [opened, dials, List.filterMap_append, List.filter_append]

theorem opened_handshake (env : Env) (q : List Event) (h : q.all Event.isHandshake = true) :
    opened env q = 0 := by
  have hd := (handshake_counts q h).1
  simp [opened, hd]

theorem calm_of_quiet {α : Type} {m : Step α} (h : Quiet m) : Calm m :=
  ⟨fun sc => ⟨[], by simpa using (h.all sc).1, rfl⟩⟩

theorem calm_bind {α β : Type} {m : Step α} {k : α → Step β}
    (hm : Calm m) (hk : ∀ a, Calm (k a)) : Calm (m >>= k) := by
  refine ⟨fun sc => ?_⟩
  rw [bind_apply]
  obtain ⟨r1, h, c1⟩ := hm.all sc
  rcases hr : m sc with ⟨r, sc1⟩
  rw [hr] at h
  have h1 : sc1.conn.log = sc.conn.log ++ r1 := h
  cases r with
  | ok a =>
    obtain ⟨r2, h2, c2⟩ := (hk a).all sc1
    exact ⟨r1 ++ r2, by rw [h2, h1, List.append_assoc], by simp [List.all_append, c1, c2]⟩
  | error e => exact ⟨r1, h1, c1⟩

theorem calm_Flush (bw : List Byte) : Calm (Flush bw) := by
  refine ⟨fun sc => ?_⟩
  unfold Socks.Flush
  split
  · exact ⟨[], by simp, rfl⟩
  · exact ⟨[.write bw], rfl, rfl⟩

theorem calm_WriteMessage (t : SocksMessageType) (args : List (ConnectionArgs → ConnectionArgs)) :
    Calm (WriteMessage t args) := by
  cases t <;> first
    | exact calm_Flush _
    | exact calm_of_quiet (quiet_fail _)

theorem calm_ReadMessage (env : Env) (t : SocksMessageType) : Calm (ReadMessage env t) :=
  ⟨fun sc => ⟨[.read t], (ReadMessage_log env t sc).1, rfl⟩⟩

theorem calm_negotiate (env : Env) : Calm (Serve.negotiate env) := by
  unfold Serve.negotiate
  refine calm_bind (calm_ReadMessage _ _) (fun m => ?_)
  cases m <;>
    repeat (first
      | exact calm_of_quiet (quiet_pure _)
      | exact calm_WriteMessage _ _
      | exact calm_ReadMessage _ _
      | (apply calm_bind)
      | (intro _)
      | split)

/-- A run that failed during the handshake opened and closed nothing. -/
theorem settled_handshake (env : Env) (q : List Event) (h : q.all Event.isHandshake = true) :
    Settled env false 0 q := by
  obtain ⟨_, c1, c2⟩ := handshake_counts q h
  have ho := opened_handshake env q h
  unfold Settled
  exact ⟨by omega, fun hb => absurd hb (by decide), fun _ => ⟨by omega, by omega⟩⟩

/-- Events of the handshake in front change nothing in the account. -/
theorem settled_append (env : Env) (b : Bool) (q r : List Event)
    (h : q.all Event.isHandshake = true) (hr : Settled env b 0 r) : Settled env b 0 (q ++ r) := by
  obtain ⟨_, c1, c2⟩ := handshake_counts q h
  have ho := opened_handshake env q h
  unfold Settled at hr ⊢
  obtain ⟨h1, h2, h3⟩ := hr
  refine ⟨by rw [opened_append]; omega, fun hb => ?_, fun hb => ?_⟩
  · obtain ⟨a1, a2, a3⟩ := h2 hb
    refine ⟨by rw [opened_append]; omega, ?_, ?_⟩ <;> rw [List.count_append] <;> omega
  · obtain ⟨a1, a2⟩ := h3 hb
    refine ⟨?_, ?_⟩ <;> rw [List.count_append, opened_append] <;> omega

theorem paired_of_calm (env : Env) {α : Type} {m : Step α} (h : Calm m) (e : Err) :
    Paired env (m >>= fun _ => (fail e : Step Bool)) := by
  refine ⟨fun sc => ?_⟩
  rw [bind_apply]
  obtain ⟨r1, hl, c1⟩ := h.all sc
  rcases hr : m sc with ⟨r, sc1⟩
  rw [hr] at hl
  have h1 : sc1.conn.log = sc.conn.log ++ r1 := hl
  cases r with
  | ok a => exact ⟨r1, h1, settled_handshake env r1 c1⟩
  | error e1 => exact ⟨r1, h1, settled_handshake env r1 c1⟩

theorem paired_fail (env : Env) (e : Err) : Paired env (fail e : Step Bool) :=
  ⟨fun _ => ⟨[], by simp [fail], settled_handshake env [] rfl⟩⟩

theorem paired_bind (env : Env) {α : Type} {m : Step α} {k : α → Step Bool}
    (hm : Calm m) (hk : ∀ a, Paired env (k a)) : Paired env (m >>= k) := by
  refine ⟨fun sc => ?_⟩
  rw [bind_apply]
  obtain ⟨r1, h, c1⟩ := hm.all sc
  rcases hr : m sc with ⟨r, sc1⟩
  rw [hr] at h
  have h1 : sc1.conn.log = sc.conn.log ++ r1 := h
  cases r with
  | ok a =>
    obtain ⟨r2, h2, hs⟩ := (hk a).all sc1
    exact ⟨r1 ++ r2, by rw [h2, h1, List.append_assoc], settled_append env _ r1 r2 c1 hs⟩
  | error e => exact ⟨r1, h1, settled_handshake env r1 c1⟩

/-- From the dial on: a failed dial opens nothing and nothing is closed; after a dial that
succeeded the relay is started, and the two closes follow if and only if it ends. -/
theorem paired_dial_relay (env : Env) (network target : String) :
    Paired env (do
      emit (.dial network target)
      liftExcept (env.Dial network target)
      emit .relay
      let ended ← wgWait env network target
      if ended then do
        emit .closeClient
        emit .closeTarget
        pure true
      else pure false) := by
  refine ⟨fun sc => ?_⟩
  simp only [bind_apply, emit_apply, wgWait]
  cases hd : env.Dial network target with
  | error e =>
    refine ⟨[.dial network target], by simp [liftExcept, fail], ?_⟩
    simp [liftExcept, fail, staysInRelay, Settled, opened, dials, hd]
  | ok u =>
    cases hrel : env.Relay network target sc.conn.rx with
    | none =>
      refine ⟨[.dial network target, .relay], by simp [liftExcept, pure_apply, hrel], ?_⟩
      simp [liftExcept, pure_apply, staysInRelay, Settled, opened, dials, hd, hrel]
    | some left =>
      refine ⟨[.dial network target, .relay, .closeClient, .closeTarget],
        by simp [liftExcept, pure_apply, hrel, emit_apply, bind_apply], ?_⟩
      simp [liftExcept, pure_apply, staysInRelay, Settled, opened, dials, hd, hrel, emit_apply,
        bind_apply]

theorem paired_request (env : Env) : Paired env (Serve.request env) := by
  unfold Serve.request
  refine paired_bind env (calm_ReadMessage _ _) (fun m => ?_)
  cases m with
  | connect msg =>
    simp only
    split
    · refine paired_bind env (calm_WriteMessage _ _) (fun _ => ?_)
      exact paired_dial_relay env _ _
    · exact paired_fail env _
  | negotiate msg => exact paired_fail env _
  | authenticate msg => exact paired_fail env _

theorem paired_serve (env : Env) :
    Paired env (do Serve.negotiate env; Serve.request env : Step Bool) :=
  paired_bind env (calm_negotiate env) (fun _ => paired_request env)

/-! ## The claims on replies, decoding, targets and closes -/

/-- Claim C11, on the code: for the address types 04 (IPv6) and 03 (domain) the success reply
written is the five bytes 05 00 00 00 00: no address type byte and no bound address, only
version, reply code, reserved byte and the two port bytes. Only the type 01 is echoed. -/
theorem WriteMessage_success_omits_atyp :
    (WriteMessage .MessageRequestSuccess [WithAddressType ATYP_IPV6] (client [])).2.conn.log =
      [.write [0x05, 0x00, 0x00, 0x00, 0x00]] ∧
    (WriteMessage .MessageRequestSuccess [WithAddressType ATYP_DOMAIN] (client [])).2.conn.log =
      [.write [0x05, 0x00, 0x00, 0x00, 0x00]] ∧
    (WriteMessage .MessageRequestSuccess [WithAddressType ATYP_IPV4] (client [])).2.conn.log =
      [.write [0x05, 0x00, 0x00, 0x01, 0x00, 0x00, 0x00, 0x00, 0x00, 0x00]] := by
  decide

/-- Claim C12, on the code: after the AuthRequest 01 02 61 62 03 78 79 7A (ULEN 2, PLEN 3)
the last password byte 7A is still unread in front of the bytes that follow, and after the
AuthRequest 01 00 01 70 (ULEN 0) the whole password 70 is still unread. -/
theorem ReadMessage_auth_leaves_password_bytes :
    (ReadMessage envReachable .MessageUserPassAuth authThenConnect).2.stream =
      0x7A :: [0x05, 0x01, 0x00, 0x01, 0x7F, 0x00, 0x00, 0x01, 0x00, 0x50] ∧
    (ReadMessage envReachable .MessageUserPassAuth emptyUserThenConnect).2.stream =
      0x70 :: [0x05, 0x01, 0x00, 0x01, 0x7F, 0x00, 0x00, 0x01, 0x00, 0x50] := by
  decide

/-- Claim C13 fails: decoding the negotiation request 05 01 00 and encoding the result does
not give back 05 01 00, it gives the error "not implemented". -/
theorem roundTrip_counterexample :
    roundTrip envReachable .MessageNegotiate (client [⟨0x05, [0x01, 0x00]⟩]) ≠
      .ok [0x05, 0x01, 0x00] ∧
    roundTrip envReachable .MessageNegotiate (client [⟨0x05, [0x01, 0x00]⟩]) =
      .error .notImplemented := by
  decide

/-- Claim C13, amended. `Marshal` of every message, whatever was decoded into it, returns the
error "not implemented" and no bytes. -/
theorem Marshal_not_implemented (m : SocksMessage) : m.Marshal = .error .notImplemented := by
  cases m <;> rfl

/-- Claim C14. For the client stream 05 01 00, then 05 01 00 01 7F 00 00 01 00 50, and a dial
that succeeds, the log of `Serve` is: negotiation read, 05 00 written, request read (no
AuthRequest in between), 05 00 00 01 00 00 00 00 00 00 written, dial of "tcp"
"127.0.0.1:80", relay started; when the relay ends the two closes follow and `Serve` returns
nil, and when it does not end `Serve` does not return. -/
theorem Serve_no_auth_connect (env : Env) (hd : env.Dial "tcp" "127.0.0.1:80" = .ok ()) :
    ∃ sc1, Serve env (some asksConnect) =
        (match env.Relay "tcp" "127.0.0.1:80" [] with
          | some _ => .returned none sc1
          | none => .blocked sc1) ∧
      sc1.conn.log =
        [.read .MessageNegotiate, .write [0x05, 0x00], .read .MessageRequest,
         .write [0x05, 0x00, 0x00, 0x01, 0x00, 0x00, 0x00, 0x00, 0x00, 0x00],
         .dial "tcp" "127.0.0.1:80", .relay] ++
        (match env.Relay "tcp" "127.0.0.1:80" [] with
          | some _ => [.closeClient, .closeTarget]
          | none => []) := by
  have hn : Serve.negotiate env asksConnect =
      (.ok (), ⟨⟨[connectLocalhost], 2, [.read .MessageNegotiate, .write [0x05, 0x00]]⟩, []⟩) := rfl
  have hr : ReadMessage env .MessageRequest
        ⟨⟨[connectLocalhost], 2, [.read .MessageNegotiate, .write [0x05, 0x00]]⟩, []⟩ =
      (.ok (.connect
          { Version := 0x05, Command := 0x01, Rsv := 0x00, Atyp := 0x01, Address := "127.0.0.1",
            Port := 80, Network := "tcp" }),
        ⟨⟨[], 2, [.read .MessageNegotiate, .write [0x05, 0x00], .read .MessageRequest]⟩, []⟩) := rfl
  obtain ⟨sc3, h3, hlog⟩ := Serve_request_v5 env hn hr rfl (by decide)
  have hd1 : env.Dial "tcp" ("127.0.0.1" ++ ":" ++ toString 80) = .ok () := hd
  simp only [hd1] at h3 hlog
  cases hrel : env.Relay "tcp" "127.0.0.1:80" [] with
  | none =>
    have hrel1 : env.Relay "tcp" ("127.0.0.1" ++ ":" ++ toString 80) [] = none := hrel
    simp only [hrel1] at h3 hlog
    exact ⟨sc3, h3, hlog⟩
  | some left =>
    have hrel1 : env.Relay "tcp" ("127.0.0.1" ++ ":" ++ toString 80) [] = some left := hrel
    simp only [hrel1] at h3 hlog
    exact ⟨sc3, h3, hlog⟩

/-- Claim C14 in the environment where every dial succeeds and the peers of a "tcp" relay
close: `Serve` returns nil after the two closes. -/
theorem Serve_no_auth_connect_witness :
    envReachable.Dial "tcp" "127.0.0.1:80" = .ok () ∧
    ∃ sc1, Serve envReachable (some asksConnect) = .returned none sc1 ∧
      sc1.conn.log =
        [.read .MessageNegotiate, .write [0x05, 0x00], .read .MessageRequest,
         .write [0x05, 0x00, 0x00, 0x01, 0x00, 0x00, 0x00, 0x00, 0x00, 0x00],
         .dial "tcp" "127.0.0.1:80", .relay, .closeClient, .closeTarget] :=
  ⟨rfl, Serve_no_auth_connect envReachable rfl⟩

/-- Claim C15. On a stream that holds v, N, the N method bytes ms and then rest, however the
connection delivers it, `ReadMessage` for the negotiation returns version v, count N and
the methods ms unchanged, and leaves exactly rest unread. -/
theorem ReadMessage_negotiate_decodes (env : Env) (sc : SocksV5Connection) (v : Byte)
    (ms rest : List Byte) (h : sc.stream = v :: ms.length :: (ms ++ rest)) :
    ∃ sc1, ReadMessage env .MessageNegotiate sc =
        (.ok (.negotiate { Version := v, NoMethods := ms.length, Methods := ms }), sc1) ∧
      sc1.stream = rest :=
  ReadMessage_negotiate_stream env h

/-- Claim C15 at version 04 with the methods 00 02 02 01, split over two segments. -/
theorem ReadMessage_negotiate_decodes_witness :
    (client [⟨0x04, [0x04, 0x00]⟩, ⟨0x02, [0x02, 0x01, 0x09, 0x09]⟩]).stream =
      0x04 :: [0x00, 0x02, 0x02, 0x01].length :: ([0x00, 0x02, 0x02, 0x01] ++ [0x09, 0x09]) ∧
    ∃ sc1, ReadMessage envReachable .MessageNegotiate
          (client [⟨0x04, [0x04, 0x00]⟩, ⟨0x02, [0x02, 0x01, 0x09, 0x09]⟩]) =
        (.ok (.negotiate
          { Version := 0x04, NoMethods := [0x00, 0x02, 0x02, 0x01].length,
            Methods := [0x00, 0x02, 0x02, 0x01] }), sc1) ∧
      sc1.stream = [0x09, 0x09] :=
  ⟨by decide,
    ReadMessage_negotiate_decodes envReachable
      (client [⟨0x04, [0x04, 0x00]⟩, ⟨0x02, [0x02, 0x01, 0x09, 0x09]⟩])
      0x04 [0x00, 0x02, 0x02, 0x01] [0x09, 0x09] (by decide)⟩

/-- A ConnectRequest VER CMD RSV 01 a0 a1 a2 a3 hi lo that is at hand as a whole (buffered, or
in the next segment of the connection), whatever VER, CMD and RSV are and whatever follows,
is decoded into exactly these fields, with the dotted-decimal address and the port
256 * hi + lo, and exactly its ten bytes are consumed. -/
theorem ReadMessage_request_ipv4_decodes (env : Env) (sc : SocksV5Connection)
    (ver cmd rsv a0 a1 a2 a3 hi lo : Byte) (more : List Byte)
    (h : sc.available =
      ver :: cmd :: rsv :: ATYP_IPV4 :: a0 :: a1 :: a2 :: a3 :: hi :: lo :: more) :
    ∃ sc1, ReadMessage env .MessageRequest sc =
        (.ok (.connect
          { Version := ver, Command := cmd, Rsv := rsv, Atyp := ATYP_IPV4,
            Address := toString a0 ++ "." ++ toString a1 ++ "." ++ toString a2 ++ "." ++ toString a3,
            Port := 256 * hi + lo,
            Network := if cmd = CMD_CONNECT then "tcp" else "udp" }), sc1) ∧
      sc.stream = ver :: cmd :: rsv :: ATYP_IPV4 :: a0 :: a1 :: a2 :: a3 :: hi :: lo :: sc1.stream := by
  have h0 : (emit (.read .MessageRequest) sc).2.available =
      ver :: cmd :: rsv :: ATYP_IPV4 :: a0 :: a1 :: a2 :: a3 :: hi :: lo :: more := h
  obtain ⟨sc1, h1, hbr1, hs1, _, _⟩ := ReadByte_available h0
  rw [emit_apply] at h1
  have hs : sc.stream = ver :: sc1.stream := hs1
  have h2 : ReadByte sc1 =
      (.ok cmd, ⟨sc1.conn, rsv :: ATYP_IPV4 :: a0 :: a1 :: a2 :: a3 :: hi :: lo :: more⟩) :=
    ReadByte_buffered hbr1
  have h3 : ReadByte ⟨sc1.conn, rsv :: ATYP_IPV4 :: a0 :: a1 :: a2 :: a3 :: hi :: lo :: more⟩ =
      (.ok rsv, ⟨sc1.conn, ATYP_IPV4 :: a0 :: a1 :: a2 :: a3 :: hi :: lo :: more⟩) :=
    ReadByte_buffered rfl
  have h4 : ReadByte ⟨sc1.conn, ATYP_IPV4 :: a0 :: a1 :: a2 :: a3 :: hi :: lo :: more⟩ =
      (.ok ATYP_IPV4, ⟨sc1.conn, a0 :: a1 :: a2 :: a3 :: hi :: lo :: more⟩) :=
    ReadByte_buffered rfl
  have h5 : ReadFull 4 ⟨sc1.conn, a0 :: a1 :: a2 :: a3 :: hi :: lo :: more⟩ =
      (.ok [a0, a1, a2, a3], ⟨sc1.conn, hi :: lo :: more⟩) :=
    @ReadFull_buffered _ [a0, a1, a2, a3] _ rfl (by simp)
  have h6 : Read 2 ⟨sc1.conn, hi :: lo :: more⟩ = (.ok [hi, lo], ⟨sc1.conn, more⟩) :=
    @Read_buffered _ [hi, lo] _ rfl (by simp)
  refine ⟨⟨sc1.conn, more⟩, ?_, ?_⟩
  · simp only [ReadMessage, bind_apply, emit_apply, h1, h2, h3, h4, if_true, h5, pure_apply,
      zeros, List.length_replicate, h6, copyInto, List.length_cons, List.length_nil,
      List.drop_replicate, liftExcept, decodeU16, IPString_ipv4]
    simp [Nat.mul_comm]
  · rw [hs]
    simp [SocksV5Connection.stream, hbr1]

/-- Claim C16, on the code: the ten bytes 05 01 00 01 7F 00 00 01 00 50 are all in the stream,
followed by 09, but the last byte of the port comes in a second segment. `ReadMessage`
returns the port 0 (from the one byte 00 that was buffered) in place of 80, and leaves 50 09
unread: it has consumed nine bytes. -/
theorem ReadMessage_request_split_port :
    (client [⟨0x05, [0x01, 0x00, 0x01, 0x7F, 0x00, 0x00, 0x01, 0x00]⟩, ⟨0x50, [0x09]⟩]).stream =
      [0x05, 0x01, 0x00, 0x01, 0x7F, 0x00, 0x00, 0x01, 0x00, 0x50] ++ [0x09] ∧
    ReadMessage envReachable .MessageRequest
        (client [⟨0x05, [0x01, 0x00, 0x01, 0x7F, 0x00, 0x00, 0x01, 0x00]⟩, ⟨0x50, [0x09]⟩]) =
      (.ok (.connect
          { Version := 0x05, Command := 0x01, Rsv := 0x00, Atyp := 0x01, Address := "127.0.0.1",
            Port := 0, Network := "tcp" }),
        { conn := { rx := [⟨0x50, [0x09]⟩], tx := 3, log := [.read .MessageRequest] }, br := [] }) := by
  decide

/-- Claim C17, on the code: when the lookup for "localhost" returns ::1 first (and
127.0.0.1 second), the decoded address is the text "<nil>", which is the text of none of
the returned addresses. -/
theorem ReadMessage_domain_ipv6_first_nil :
    (ReadMessage envIPv6First .MessageRequest (client [connectDomain])).1 =
      .ok (.connect
        { Version := 0x05, Command := 0x01, Rsv := 0x00, Atyp := 0x03, Address := "<nil>",
          Port := 80, Network := "tcp" }) ∧
    IPString [0, 0, 0, 0, 0, 0, 0, 0, 0, 0, 0, 0, 0, 0, 0, 1] = "::1" ∧
    IPString [127, 0, 0, 1] = "127.0.0.1" := by
  decide

/-- Claim C18, on the code: for a CONNECT to port 80 of the IPv6 address ::1 the target
`Serve` dials is the text "::1:80", without brackets around the address. -/
theorem Serve_ipv6_target_without_brackets :
    dials (Serve envReachable (some asksConnectIPv6)).log = [("tcp", "::1:80")] := by
  decide

/-- Claim C19 fails. After a completed relay the handler has closed the client stream
twice, once in `Serve` and once by the deferred Close. And after a BIND request the target
dialed over "udp" is opened, the relay never ends, the handler never ends and neither
stream is closed. -/
theorem StartHandler_closes_counterexample :
    ((StartHandler envReachable asksConnect.conn).conn.log.count .closeClient = 2 ∧
      (StartHandler envReachable asksConnect.conn).isBlocked = false) ∧
    ((StartHandler envReachable asksBind.conn).isBlocked = true ∧
      opened envReachable (StartHandler envReachable asksBind.conn).conn.log = 1 ∧
      (StartHandler envReachable asksBind.conn).conn.log.count .closeTarget = 0 ∧
      (StartHandler envReachable asksBind.conn).conn.log.count .closeClient = 0) := by
  decide

/-- Claim C19, amended. On every path through the handler and `Serve`, at most one target is
opened (one dial succeeds). When the handler ends, by return or by panic, the target has
been closed exactly once if one was opened and never otherwise, and the client has been
closed once by the deferred Close plus once more, in `Serve`, if a target was opened. When
the handler does not end (the relay never ends), a target has been opened and neither
stream has been closed. -/
theorem StartHandler_close_counts (env : Env) (conn : Conn) :
    ∃ rest, (StartHandler env conn).conn.log = conn.log ++ rest ∧
      opened env rest ≤ 1 ∧
      ((StartHandler env conn).isBlocked = true →
        opened env rest = 1 ∧ rest.count .closeClient = 0 ∧ rest.count .closeTarget = 0) ∧
      ((StartHandler env conn).isBlocked = false →
        rest.count .closeTarget = opened env rest ∧
        rest.count .closeClient = 1 + opened env rest) := by
  have hclose : ∀ (c : Conn) (r : List Event), c.log = conn.log ++ r → Settled env false 0 r →
      ∃ rest, (Close c).log = conn.log ++ rest ∧ Settled env false 1 rest := by
    intro c r hc hs
    unfold Settled at hs ⊢
    obtain ⟨h1, _, h3⟩ := hs
    obtain ⟨a1, a2⟩ := h3 rfl
    have ho : opened env (r ++ [.closeClient]) = opened env r := by
      rw [opened_append]
      simp [opened, dials]
    refine ⟨r ++ [.closeClient], by simp [Close, hc], by rw [ho]; exact h1,
      fun hb => absurd hb (by decide), fun _ => ⟨?_, ?_⟩⟩
    · rw [ho, List.count_append]
      simpa using a1
    · rw [ho, List.count_append, a2]
      simp
      omega
  have hdone : ∀ c : Conn, (∃ rest, c.log = conn.log ++ rest ∧ Settled env false 1 rest) →
      ∀ e : Ended, e.conn = c → e.isBlocked = false →
      ∃ rest, e.conn.log = conn.log ++ rest ∧
        opened env rest ≤ 1 ∧
        (e.isBlocked = true →
          opened env rest = 1 ∧ rest.count .closeClient = 0 ∧ rest.count .closeTarget = 0) ∧
        (e.isBlocked = false →
          rest.count .closeTarget = opened env rest ∧
          rest.count .closeClient = 1 + opened env rest) := by
    intro c h e he hb
    obtain ⟨rest, hl, hs⟩ := h
    unfold Settled at hs
    refine ⟨rest, by rw [he, hl], hs.1, fun hb1 => ?_, fun _ => hs.2.2 rfl⟩
    rw [hb] at hb1
    exact absurd hb1 (by decide)
  unfold StartHandler
  simp only
  rcases hb : ReadByte ⟨conn, []⟩ with ⟨r, br⟩
  have hq := (quiet_ReadByte.all ⟨conn, []⟩).1
  rw [hb] at hq
  have hq1 : br.conn.log = conn.log := hq
  cases r with
  | error e =>
    exact hdone _ (hclose br.conn [] (by simpa using hq1) (settled_handshake env [] rfl)) _ rfl rfl
  | ok ver =>
    simp only [UnreadByte]
    by_cases hv : ver = SOCKS5_VERSION
    · subst hv
      simp only [if_true, Serve]
      obtain ⟨rest, hl, hs⟩ := (paired_serve env).all ⟨br.conn, SOCKS5_VERSION :: br.br⟩
      rcases hrun : (do Serve.negotiate env; Serve.request env : Step Bool)
        ⟨br.conn, SOCKS5_VERSION :: br.br⟩ with ⟨res, sc1⟩
      rw [hrun] at hl hs
      have hl1 : sc1.conn.log = conn.log ++ rest := by
        have : sc1.conn.log = br.conn.log ++ rest := hl
        rw [this, hq1]
      cases res with
      | error e =>
        exact hdone _ (hclose sc1.conn rest hl1 hs) _ rfl rfl
      | ok b =>
        cases b with
        | true => exact hdone _ (hclose sc1.conn rest hl1 hs) _ rfl rfl
        | false =>
          unfold Settled at hs
          refine ⟨rest, hl1, hs.1, fun _ => hs.2.1 rfl, fun hb1 => ?_⟩
          have hb2 : true = false := hb1
          exact absurd hb2 (by decide)
    · simp only [hv, if_false, Serve]
      exact hdone _ (hclose br.conn [] (by simpa using hq1) (settled_handshake env [] rfl)) _ rfl rfl

/-- Claim C20, on the code: the AuthReply written is 05 00, with the version of the main
protocol, not 01 00. -/
theorem WriteMessage_auth_success_version :
    (WriteMessage .MessageUserPassAuthSuccess [] (client [])).2.conn.log =
      [.write [SOCKS5_VERSION, USERPASS_SUCCESS]] ∧
    SOCKS5_VERSION ≠ USERPASS_VERSION := by
  decide

end Socks
